import Mathlib

/-!
Verification of the k8s-envtop environment-variable resolver, diff engine
and interactive session state machine.

The definitions below are a shallow embedding of the Go sources:
  internal/k8s/types.go      (data model, HashValue, EncodeBase64)
  internal/env/resolver.go   (resolveFromPodSpec, resolveEnvFrom,
                              resolveEnvVar, CompareEnvVars)
  internal/tui/model.go      (Model, Update, handleKeyPress and the
                              per-mode key handlers)
  internal/tui/styles.go     (DefaultKeyMap)

Go byte slices are modelled as `List Nat` (each entry one byte), Go strings
as Lean `String` (Go's `len` on strings counts UTF-8 bytes, modelled by
`goLen`).  Go maps are modelled as association lists with distinct keys;
`range` iteration is modelled as list-order iteration (Go's map iteration
order is unspecified, but every property proved below is independent of
that order: keys within one map are distinct, so dedup winners and the
final sorted output do not depend on it).  The Kubernetes API client is
modelled as an explicit read-only `Cluster` value; a failed Get is `none`.
-/

namespace Envtop
/-- Standard UTF-8 encoding of one character (code point), as Go produces it. -/
def charUtf8 (c : Char) : List Nat :=
  let n := c.toNat
  if n < 128 then [n]
  else if n < 2048 then [192 + n / 64, 128 + n % 64]
  else if n < 65536 then [224 + n / 4096, 128 + (n / 64) % 64, 128 + n % 64]
  else [240 + n / 262144, 128 + (n / 4096) % 64, 128 + (n / 64) % 64, 128 + n % 64]

/-- The bytes of a Go string (Go strings are UTF-8 byte sequences). -/
def strBytes (s : String) : List Nat :=
  (s.toList.map charUtf8).flatten

/-- Go `len` on a string: the number of UTF-8 bytes. -/
def goLen (s : String) : Nat :=
  (strBytes s).length

/-! ## SHA-256 (the `crypto/sha256` library function used by `k8s.HashValue`),
modelled from FIPS 180-4 over byte lists; words are `Nat` reduced mod 2^32. -/

/-- Truncate to a 32-bit word. -/
def w32 (n : Nat) : Nat := n % 4294967296

/-- Right-rotate a 32-bit word (argument assumed < 2^32). -/
def rotr32 (n x : Nat) : Nat := x / 2 ^ n + x % 2 ^ n * 2 ^ (32 - n)

/-- Logical right shift. -/
def shr32 (n x : Nat) : Nat := x / 2 ^ n

def chFn (x y z : Nat) : Nat := (x &&& y) ^^^ ((x ^^^ 4294967295) &&& z)

def majFn (x y z : Nat) : Nat := (x &&& y) ^^^ (x &&& z) ^^^ (y &&& z)

def bigSigma0 (x : Nat) : Nat := rotr32 2 x ^^^ rotr32 13 x ^^^ rotr32 22 x

def bigSigma1 (x : Nat) : Nat := rotr32 6 x ^^^ rotr32 11 x ^^^ rotr32 25 x

def smallSigma0 (x : Nat) : Nat := rotr32 7 x ^^^ rotr32 18 x ^^^ shr32 3 x

def smallSigma1 (x : Nat) : Nat := rotr32 17 x ^^^ rotr32 19 x ^^^ shr32 10 x

/-- The 64 SHA-256 round constants. -/
def sha256k : List Nat :=
  [1116352408, 1899447441, 3049323471, 3921009573, 961987163,
   1508970993, 2453635748, 2870763221, 3624381080, 310598401,
   607225278, 1426881987, 1925078388, 2162078206, 2614888103,
   3248222580, 3835390401, 4022224774, 264347078, 604807628,
   770255983, 1249150122, 1555081692, 1996064986, 2554220882,
   2821834349, 2952996808, 3210313671, 3336571891, 3584528711,
   113926993, 338241895, 666307205, 773529912, 1294757372,
   1396182291, 1695183700, 1986661051, 2177026350, 2456956037,
   2730485921, 2820302411, 3259730800, 3345764771, 3516065817,
   3600352804, 4094571909, 275423344, 430227734, 506948616,
   659060556, 883997877, 958139571, 1322822218, 1537002063,
   1747873779, 1955562222, 2024104815, 2227730452, 2361852424,
   2428436474, 2756734187, 3204031479, 3329325298]

/-- The SHA-256 initial hash state. -/
def sha256init : List Nat :=
  [1779033703, 3144134277, 1013904242, 2773480762, 1359893119,
   2600822924, 528734635, 1541459225]

/-- Big-endian byte encoding of a number in `n` bytes. -/
def beBytes : Nat → Nat → List Nat
  | 0, _ => []
  | n + 1, x => beBytes n (x / 256) ++ [x % 256]

/-- SHA-256 padding: append 0x80, zero bytes, and the 64-bit big-endian bit length. -/
def sha256pad (msg : List Nat) : List Nat :=
  let len := msg.length
  let padZeros := (55 + 64 - len % 64) % 64
  msg ++ [128] ++ List.replicate padZeros 0 ++ beBytes 8 (8 * len)

/-- Group bytes into big-endian 32-bit words. -/
def toWords : List Nat → List Nat
  | b0 :: b1 :: b2 :: b3 :: rest => (((b0 * 256 + b1) * 256 + b2) * 256 + b3) :: toWords rest
  | _ => []

/-- Split a word list into 16-word blocks (structural recursion on a fuel
bound so the kernel can evaluate it). -/
def chunks16Aux : Nat → List Nat → List (List Nat)
  | 0, _ => []
  | _ + 1, [] => []
  | n + 1, w :: ws => (w :: ws).take 16 :: chunks16Aux n (ws.drop 15)

/-- Split a word list into 16-word blocks. -/
def chunks16 (l : List Nat) : List (List Nat) := chunks16Aux l.length l

/-- Extend a 16-word block to the 64-word message schedule. -/
def schedule (block : List Nat) : List Nat :=
  (List.range 48).foldl
    (fun acc _ =>
      let t := acc.length
      acc ++ [w32 (smallSigma1 (acc.getD (t - 2) 0) + acc.getD (t - 7) 0 +
                   smallSigma0 (acc.getD (t - 15) 0) + acc.getD (t - 16) 0)])
    block

/-- One round of the SHA-256 compression function. -/
def compressStep (st : List Nat) (kw : Nat × Nat) : List Nat :=
  match st with
  | [a, b, c, d, e, f, g, hh] =>
    let t1 := w32 (hh + bigSigma1 e + chFn e f g + kw.1 + kw.2)
    let t2 := w32 (bigSigma0 a + majFn a b c)
    [w32 (t1 + t2), a, b, c, w32 (d + t1), e, f, g]
  | _ => st

/-- Process one 16-word block. -/
def processBlock (h0 : List Nat) (block : List Nat) : List Nat :=
  let st := (sha256k.zip (schedule block)).foldl compressStep h0
  (h0.zip st).map (fun p => w32 (p.1 + p.2))

/-- SHA-256 digest (32 bytes) of a byte list. -/
def sha256 (msg : List Nat) : List Nat :=
  let blocks := chunks16 (toWords (sha256pad msg))
  ((blocks.foldl processBlock sha256init).map (beBytes 4)).flatten

/-- Lowercase hexadecimal digit. -/
def hexDigit (n : Nat) : Char := "0123456789abcdef".toList.getD n '0'

/-- Two lowercase hex characters of one byte (`fmt.Sprintf "%x"` per byte). -/
def hexByte (b : Nat) : String := String.mk [hexDigit (b / 16), hexDigit (b % 16)]

/-- Lowercase hex encoding of a byte list (Go `fmt.Sprintf("%x", bytes)`). -/
def hexBytes : List Nat → String
  | [] => ""
  | b :: bs => hexByte b ++ hexBytes bs

/-- `k8s.HashValue` (types.go): hex of the first 4 bytes of the SHA-256 digest. -/
def hashValue (value : List Nat) : String := hexBytes ((sha256 value).take 4)

/-! ## Go string ordering

Go compares strings byte-lexicographically (`<` on strings, `sort.Strings`,
`sort.Slice` by `Name <`).  Because UTF-8 is code-point order preserving,
byte-lexicographic order equals code-point-lexicographic order, modelled here
as an executable comparator on the character lists. -/

/-- Lexicographic less-or-equal on character lists by code point. -/
def charListLe : List Char → List Char → Bool
  | [], _ => true
  | _ :: _, [] => false
  | a :: as, b :: bs =>
    if a.toNat < b.toNat then true
    else if b.toNat < a.toNat then false
    else charListLe as bs

/-- Go `a <= b` on strings. -/
def goStrLe (a b : String) : Bool := charListLe a.data b.data

/-- The standard base64 alphabet character for a 6-bit index. -/
def b64Char (n : Nat) : Char :=
  "ABCDEFGHIJKLMNOPQRSTUVWXYZabcdefghijklmnopqrstuvwxyz0123456789+/".toList.getD n 'A'

/-- Standard base64 with padding, as `base64.StdEncoding.EncodeToString`
(`k8s.EncodeBase64` in types.go). -/
def encodeBase64 : List Nat → String
  | [] => ""
  | [b0] =>
    String.mk [b64Char (b0 / 4), b64Char (b0 % 4 * 16), '=', '=']
  | [b0, b1] =>
    String.mk [b64Char (b0 / 4), b64Char (b0 % 4 * 16 + b1 / 16), b64Char (b1 % 16 * 4), '=']
  | b0 :: b1 :: b2 :: rest =>
    String.mk [b64Char (b0 / 4), b64Char (b0 % 4 * 16 + b1 / 16),
               b64Char (b1 % 16 * 4 + b2 / 64), b64Char (b2 % 64)] ++ encodeBase64 rest

/-! ## Data model (internal/k8s/types.go) -/

/-- `k8s.AppKind`. -/
inductive AppKind where
  | deployment
  | statefulSet
deriving DecidableEq, Repr

/-- `k8s.App`: a workload. -/
structure App where
  name : String := ""
  namesp : String := ""
  kind : AppKind := .deployment
deriving DecidableEq, Repr

/-- `k8s.EnvSourceKind`. -/
inductive EnvSourceKind where
  | configMap
  | secret
  | sealedSecret
  | fieldRef
  | resourceRef
  | inline
deriving DecidableEq, Repr

/-- `k8s.EnvVar`: a resolved environment variable record.  Field defaults are
the Go zero values, so a Lean structure literal omitting a field means the
same as the Go composite literal omitting it. -/
structure EnvVar where
  name : String := ""
  value : String := ""
  rawValue : List Nat := []
  sourceName : String := ""
  sourceKind : EnvSourceKind := .inline
  isSealed : Bool := false
  valueLen : Nat := 0
  hash : String := ""
deriving DecidableEq, Repr

/-- `EnvVar.IsSecret` (types.go). -/
def EnvVar.isSecret (e : EnvVar) : Bool :=
  e.sourceKind == .secret || e.sourceKind == .sealedSecret

/-! ## Cluster state (the Kubernetes API, modelled as a read-only value).
Object data maps are association lists; a lookup that Go reports as a
NotFound error is `none`. -/

/-- Association-list lookup (first binding wins; keys are assumed distinct,
as they are in a Go map). -/
def alookup {α : Type} (l : List (String × α)) (k : String) : Option α :=
  (l.find? (fun p => p.1 == k)).map (·.2)

/-- `corev1.EnvVarSource` selectors: `ConfigMapKeySelector` / `SecretKeySelector`. -/
structure KeySelector where
  name : String := ""
  key : String := ""
  optional : Option Bool := none
deriving DecidableEq, Repr

/-- `corev1.EnvVarSource`. -/
structure EnvVarSource where
  configMapKeyRef : Option KeySelector := none
  secretKeyRef : Option KeySelector := none
  /-- `FieldRef`: the referenced field path, when present. -/
  fieldRef : Option String := none
  /-- `ResourceFieldRef`: the referenced resource name, when present. -/
  resourceFieldRef : Option String := none
deriving DecidableEq, Repr

/-- `corev1.EnvVar`: one discrete `env` entry of a container. -/
structure CoreEnvVar where
  name : String := ""
  value : String := ""
  valueFrom : Option EnvVarSource := none
deriving DecidableEq, Repr

/-- `corev1.EnvFromSource` (prefix plus an optional ConfigMap and/or Secret
reference, each carrying the object name and the tri-state optional flag). -/
structure EnvFromSource where
  pfx : String := ""
  configMapRef : Option (String × Option Bool) := none
  secretRef : Option (String × Option Bool) := none
deriving DecidableEq, Repr

/-- `corev1.Container`, restricted to the fields the resolver reads. -/
structure Container where
  env : List CoreEnvVar := []
  envFrom : List EnvFromSource := []
deriving DecidableEq, Repr

/-- `corev1.PodSpec`, restricted to the fields the resolver reads. -/
structure PodSpec where
  containers : List Container := []
  initContainers : List Container := []
deriving DecidableEq, Repr

/-- The fixed cluster state a resolve runs against. -/
structure Cluster where
  /-- (namespace, name) -> ConfigMap data. -/
  configMaps : List ((String × String) × List (String × String)) := []
  /-- (namespace, name) -> Secret data (values are byte lists). -/
  secrets : List ((String × String) × List (String × List Nat)) := []
  /-- The set of (namespace, name) pairs for which a SealedSecret object exists. -/
  sealedSecrets : List (String × String) := []
  /-- (namespace, name, kind) -> pod spec of the workload. -/
  workloads : List ((String × String × AppKind) × PodSpec) := []

/-- `Client.GetConfigMap`: `none` models a NotFound error. -/
def getConfigMap (st : Cluster) (ns name : String) : Option (List (String × String)) :=
  (st.configMaps.find? (fun p => p.1 == (ns, name))).map (·.2)

/-- `Client.GetSecret`: `none` models a NotFound error. -/
def getSecret (st : Cluster) (ns name : String) : Option (List (String × List Nat)) :=
  (st.secrets.find? (fun p => p.1 == (ns, name))).map (·.2)

/-- `Resolver.isSealedSecret` (resolver.go): `GetSealedSecret` succeeds iff the
object exists; only existence is probed. -/
def isSealedSecret (st : Cluster) (ns name : String) : Bool :=
  st.sealedSecrets.contains (ns, name)

/-- `Client.GetDeployment` / `GetStatefulSet`, reduced to the pod spec the
resolver extracts from the returned object. -/
def getWorkload (st : Cluster) (ns name : String) (kind : AppKind) : Option PodSpec :=
  (st.workloads.find? (fun p => p.1 == (ns, name, kind))).map (·.2)

/-! ## Env resolver (internal/env/resolver.go) -/

/-- `Resolver.resolveEnvVar`: resolve one discrete `env` entry.  `Except Unit`
mirrors the Go `(k8s.EnvVar, error)` return; `.error ()` is a non-nil error
(whose message the claims do not inspect). -/
def resolveEnvVar (st : Cluster) (ns : String) (e : CoreEnvVar) : Except Unit EnvVar :=
  if e.value ≠ "" then
    .ok { name := e.name, value := e.value, sourceKind := .inline, valueLen := goLen e.value }
  else
    match e.valueFrom with
    | none => .ok { name := e.name, value := "", sourceKind := .inline }
    | some vf =>
      match vf.configMapKeyRef with
      | some ref =>
        (match getConfigMap st ns ref.name with
         | none =>
           if ref.optional = some true then
             .ok { name := e.name, value := "(optional, not found)",
                   sourceName := ref.name, sourceKind := .configMap }
           else .error ()
         | some data =>
           let value := (alookup data ref.key).getD ""
           .ok { name := e.name, value := value, sourceName := ref.name,
                 sourceKind := .configMap, valueLen := goLen value })
      | none =>
        match vf.secretKeyRef with
        | some ref =>
          (match getSecret st ns ref.name with
           | none =>
             if ref.optional = some true then
               .ok { name := e.name, value := "(optional, not found)",
                     sourceName := ref.name, sourceKind := .secret }
             else .error ()
           | some data =>
             let value := (alookup data ref.key).getD []
             let sealed := isSealedSecret st ns ref.name
             .ok { name := e.name, rawValue := value,
                   value := "HASH: " ++ hashValue value,
                   sourceName := ref.name,
                   sourceKind := if sealed then .sealedSecret else .secret,
                   isSealed := sealed, valueLen := value.length,
                   hash := hashValue value })
        | none =>
          match vf.fieldRef with
          | some path =>
            .ok { name := e.name, value := "fieldRef: " ++ path, sourceKind := .fieldRef }
          | none =>
            match vf.resourceFieldRef with
            | some res =>
              .ok { name := e.name, value := "resourceFieldRef: " ++ res,
                    sourceKind := .resourceRef }
            | none =>
              .ok { name := e.name, value := "(unknown source)", sourceKind := .inline }

/-- The records an `envFrom` ConfigMap source contributes (one per data key,
prefixed). -/
def cmFromVars (pfx name : String) (data : List (String × String)) : List EnvVar :=
  data.map (fun kv =>
    { name := pfx ++ kv.1, value := kv.2, sourceName := name,
      sourceKind := .configMap, valueLen := goLen kv.2 })

/-- The records an `envFrom` Secret source contributes (one per data key,
prefixed, hashed). -/
def secFromVars (st : Cluster) (ns pfx name : String) (data : List (String × List Nat)) :
    List EnvVar :=
  let sealed := isSealedSecret st ns name
  data.map (fun kv =>
    { name := pfx ++ kv.1, rawValue := kv.2,
      value := "HASH: " ++ hashValue kv.2, sourceName := name,
      sourceKind := if sealed then .sealedSecret else .secret,
      isSealed := sealed, valueLen := kv.2.length, hash := hashValue kv.2 })

/-- The first half of `Resolver.resolveEnvFrom`: the ConfigMap reference.  A
NotFound on an optional reference yields no variables; a NotFound on a
non-optional reference is an error. -/
def resolveEnvFromCm (st : Cluster) (ns : String) (ef : EnvFromSource) :
    Except Unit (List EnvVar) :=
  match ef.configMapRef with
  | none => .ok []
  | some (name, opt) =>
    match getConfigMap st ns name with
    | none => if opt = some true then .ok [] else .error ()
    | some data => .ok (cmFromVars ef.pfx name data)

/-- `Resolver.resolveEnvFrom`: resolve one `envFrom` source.  Mirrors the Go
control flow: the ConfigMap block first; then the Secret block, where a
NotFound on an optional reference returns the variables gathered so far and a
NotFound on a non-optional reference is returned as an error. -/
def resolveEnvFrom (st : Cluster) (ns : String) (ef : EnvFromSource) : Except Unit (List EnvVar) :=
  match resolveEnvFromCm st ns ef with
  | .error e => .error e
  | .ok vars =>
    match ef.secretRef with
    | none => .ok vars
    | some (name, opt) =>
      match getSecret st ns name with
      | none => if opt = some true then .ok vars else .error ()
      | some data => .ok (vars ++ secFromVars st ns ef.pfx name data)

/-- The dedup step of `resolveFromPodSpec`: append each variable whose name has
not been seen, recording newly seen names (`seen[v.Name]` / append). -/
def addVars (p : List String × List EnvVar) : List EnvVar → List String × List EnvVar
  | [] => p
  | v :: vs =>
    if p.1.contains v.name then addVars p vs
    else addVars (v.name :: p.1, p.2 ++ [v]) vs

/-- The `envFrom` loop of `resolveFromPodSpec`: a source whose resolution fails
is skipped ("Log error but continue"). -/
def envFromLoop (st : Cluster) (ns : String) (p : List String × List EnvVar) :
    List EnvFromSource → List String × List EnvVar
  | [] => p
  | ef :: efs =>
    match resolveEnvFrom st ns ef with
    | .error _ => envFromLoop st ns p efs
    | .ok vars => envFromLoop st ns (addVars p vars) efs

/-- The discrete `env` loop of `resolveFromPodSpec`: an entry whose resolution
fails is skipped ("Log error but continue"). -/
def envLoop (st : Cluster) (ns : String) (p : List String × List EnvVar) :
    List CoreEnvVar → List String × List EnvVar
  | [] => p
  | e :: es =>
    match resolveEnvVar st ns e with
    | .error _ => envLoop st ns p es
    | .ok v =>
      if p.1.contains v.name then envLoop st ns p es
      else envLoop st ns (v.name :: p.1, p.2 ++ [v]) es

/-- One container of the `resolveFromPodSpec` loop: `envFrom` sources first,
then discrete `env` entries. -/
def containerLoop (st : Cluster) (ns : String) (p : List String × List EnvVar)
    (c : Container) : List String × List EnvVar :=
  envLoop st ns (envFromLoop st ns p c.envFrom) c.env

/-- The final sort of `resolveFromPodSpec`: `sort.Slice` by `Name <`.  The Go
sort is unstable, but the names in the deduplicated list are pairwise
distinct, so every correct sort produces the same (strictly sorted) list;
`insertionSort` by `≤` is that list. -/
def sortByName (l : List EnvVar) : List EnvVar :=
  l.insertionSort (fun a b => goStrLe a.name b.name = true)

/-- `Resolver.resolveFromPodSpec`: containers in declared order followed by
init containers, dedup while collecting, then sort by name.  The Go function
returns `([]k8s.EnvVar, error)`; no code path inside it returns a non-nil
error. -/
def resolveFromPodSpec (st : Cluster) (ns : String) (ps : PodSpec) :
    Except Unit (List EnvVar) :=
  let allContainers := ps.containers ++ ps.initContainers
  let p := allContainers.foldl (containerLoop st ns) ([], [])
  .ok (sortByName p.2)

/-- `Resolver.ResolveAppEnvVars`: fetch the workload's pod spec (an error here
is propagated) and resolve from it. -/
def resolveAppEnvVars (st : Cluster) (app : App) : Except Unit (List EnvVar) :=
  match getWorkload st app.namesp app.name app.kind with
  | none => .error ()
  | some ps => resolveFromPodSpec st app.namesp ps

/-! ## Diff engine (`CompareEnvVars`, resolver.go) -/

/-- `env.DiffStatus` literals. -/
inductive DiffStatus where
  | same
  | valueDiff
  | onlyInA
  | onlyInB
deriving DecidableEq, Repr

/-- `env.DiffResult`. -/
structure DiffResult where
  name : String := ""
  envA : Option EnvVar := none
  envB : Option EnvVar := none
  status : DiffStatus := .same
deriving DecidableEq, Repr

/-- The name-keyed lookup maps of `CompareEnvVars` are built by iterating the
list forwards and overwriting, so the last record with a given name wins. -/
def lookupLast (l : List EnvVar) (n : String) : Option EnvVar :=
  l.reverse.find? (fun v => v.name == n)

/-- The status switch of `CompareEnvVars`, in Go case order: absent on side A,
absent on side B, secret on either side (hash comparison), plain value
comparison. -/
def diffStatusPair : Option EnvVar → Option EnvVar → DiffStatus
  | none, _ => .onlyInB
  | some _, none => .onlyInA
  | some a, some b =>
    if a.isSecret || b.isSecret then
      if a.hash == b.hash then .same else .valueDiff
    else if a.value == b.value then .same else .valueDiff

/-- The names of a record list. -/
def namesOf (l : List EnvVar) : List String := l.map (·.name)

/-- The sorted union of names of both sides: the key set of the two lookup
maps, collected and passed through `sort.Strings`. -/
def unionNames (envsA envsB : List EnvVar) : List String :=
  ((namesOf envsA ++ namesOf envsB).dedup).insertionSort (fun a b => goStrLe a b = true)

/-- `env.CompareEnvVars` (resolver.go): one `DiffResult` per name of the sorted
union, with each side's map entry and the status switch. -/
def compareEnvVars (envsA envsB : List EnvVar) : List DiffResult :=
  (unionNames envsA envsB).map (fun n =>
    let a := lookupLast envsA n
    let b := lookupLast envsB n
    { name := n, envA := a, envB := b, status := diffStatusPair a b })

/-! ## Session state machine (internal/tui/model.go, internal/tui/styles.go)

Key events are modelled by the string bubbletea's `KeyMsg.String()` produces
(`"q"`, `"ctrl+c"`, `"esc"`, `"enter"`, `"up"`, ... ); `key.Matches` compares
that string against the bindings of `DefaultKeyMap` (styles.go).  Commands
returned to the bubbletea runtime are modelled as data.  The ambient
`os.Getenv("ENVTOP_DISABLE_REVEAL") == "1"` check is modelled as the
`revealDisabled` flag fixed at startup.  The `revealExpiry` wall-clock
timestamp (display only) and the blink state of the two `textinput` fields
are not modelled; a `textinput.Model` is modelled by its value string. -/

/-- `tui.Pane`. -/
inductive Pane where
  | namespaces
  | apps
  | env
deriving DecidableEq, Repr

/-- `tui.ViewMode`. -/
inductive ViewMode where
  | normal
  | search
  | revealMenu
  | revealConfirm
  | revealShow
  | diffSelect
  | diffShow
deriving DecidableEq, Repr

/-- `tui.RevealMode`. -/
inductive RevealMode where
  | base64
  | plain
deriving DecidableEq, Repr

/-- A key press, identified by its bubbletea string form. -/
structure KeyMsg where
  s : String
deriving DecidableEq, Repr

/-- `DefaultKeyMap` bindings (styles.go): Quit = q, ctrl+c. -/
def matchesQuit (k : KeyMsg) : Bool := k.s == "q" || k.s == "ctrl+c"

/-- Back = esc. -/
def matchesBack (k : KeyMsg) : Bool := k.s == "esc"

/-- Cancel = n, esc. -/
def matchesCancel (k : KeyMsg) : Bool := k.s == "n" || k.s == "esc"

/-- Enter = enter. -/
def matchesEnter (k : KeyMsg) : Bool := k.s == "enter"

/-- Up = up, k. -/
def matchesUp (k : KeyMsg) : Bool := k.s == "up" || k.s == "k"

/-- Down = down, j. -/
def matchesDown (k : KeyMsg) : Bool := k.s == "down" || k.s == "j"

/-- Left = left, h. -/
def matchesLeft (k : KeyMsg) : Bool := k.s == "left" || k.s == "h"

/-- Right = right, l. -/
def matchesRight (k : KeyMsg) : Bool := k.s == "right" || k.s == "l"

/-- Tab = tab. -/
def matchesTab (k : KeyMsg) : Bool := k.s == "tab"

/-- ShiftTab = shift+tab. -/
def matchesShiftTab (k : KeyMsg) : Bool := k.s == "shift+tab"

/-- Reveal = r. -/
def matchesReveal (k : KeyMsg) : Bool := k.s == "r"

/-- Diff = d. -/
def matchesDiff (k : KeyMsg) : Bool := k.s == "d"

/-- Search = /. -/
def matchesSearch (k : KeyMsg) : Bool := k.s == "/"

/-- The keys that bubbletea reports as special (non-rune) events, as far as
this model needs them; any other string is the literal runes typed. -/
def isSpecialKey (k : KeyMsg) : Bool :=
  k.s ∈ ["enter", "up", "down", "left", "right", "tab", "shift+tab", "esc",
         "backspace", "ctrl+p", "ctrl+n", "ctrl+c"]

/-- The `bubbles/textinput` component, modelled by its value: rune keys are
appended, backspace deletes the last character, special keys leave the value
unchanged.  (The component is an external library; only the value is ever
read by the code under verification.) -/
def textinputUpdate (v : String) (k : KeyMsg) : String :=
  if k.s == "backspace" then String.mk v.toList.dropLast
  else if isSpecialKey k then v
  else v ++ k.s

/-- Commands handed back to the bubbletea runtime, as data. -/
inductive Cmd where
  | none
  | quit
  | blink
  | loadApps (ns : String)
  | loadEnvVars (app : App)
  | loadDiff (nsA nsB appName : String) (kind : AppKind)
  | tickRevealTimeout (seconds : Nat)
deriving DecidableEq, Repr

/-- `tui.Model` (model.go), restricted to the state the update function reads
and writes. -/
structure TuiModel where
  width : Nat := 0
  height : Nat := 0
  activePane : Pane := .namespaces
  viewMode : ViewMode := .normal
  namespaces : List String := []
  namespaceIdx : Nat := 0
  namespaceCursor : Nat := 0
  apps : List App := []
  appIdx : Nat := 0
  appCursor : Nat := 0
  envVars : List EnvVar := []
  envIdx : Nat := 0
  envCursor : Nat := 0
  searchInput : String := ""
  searchPane : Pane := .namespaces
  filteredNamespaces : Option (List Nat) := none
  filteredApps : Option (List Nat) := none
  filteredEnvVars : Option (List Nat) := none
  revealMode : RevealMode := .base64
  revealMenuIdx : Nat := 0
  revealInput : String := ""
  revealedValue : List Nat := []
  revealedEnvName : String := ""
  diffNamespaces : List String := []
  diffNsIdx : Nat := 0
  diffResults : List DiffResult := []
  diffNsA : String := ""
  diffNsB : String := ""
  diffAppName : String := ""
  diffCursor : Nat := 0
  err : Option String := none
  loading : Bool := false
  revealDisabled : Bool := false
deriving DecidableEq, Repr

/-- The messages `tui.Model.Update` handles. -/
inductive Msg where
  | key (k : KeyMsg)
  | windowSize (w h : Nat)
  | namespacesLoaded (namespaces : List String)
  | appsLoaded (apps : List App)
  | envVarsLoaded (envVars : List EnvVar)
  | diffLoaded (results : List DiffResult) (nsA nsB appName : String)
  | errorMsg (e : String)
  | revealTimeout
deriving DecidableEq, Repr

/-- `Model.loadApps` as issued by the update function: nil when no namespaces
are loaded, else a load of the apps of the committed namespace. -/
def cmdLoadApps (m : TuiModel) : Cmd :=
  if m.namespaces.isEmpty then .none
  else .loadApps (m.namespaces.getD m.namespaceIdx "")

/-- `Model.loadEnvVars` as issued by the update function. -/
def cmdLoadEnvVars (m : TuiModel) : Cmd :=
  if m.apps.isEmpty then .none
  else .loadEnvVars (m.apps.getD m.appIdx {})

/-- `filterStrings` / the per-pane filter of `updateFilter`: indices whose
item matches the lowercased query by substring (empty query matches all). -/
def filterIndices (items : List String) (query : String) : List Nat :=
  ((List.range items.length).zip items).filterMap (fun p =>
    if query == "" || decide (query.toList <:+: (p.2.toLower).toList) then some p.1 else none)

/-- Store a Go int slice: `nil` stays `none`; appending produced a non-nil
slice exactly when some index matched. -/
def optList (l : List Nat) : Option (List Nat) :=
  if l.isEmpty then none else some l

/-- `Model.updateFilter` (model.go): recompute the focused pane's filtered
index set; reset that pane's cursor when the filter is non-empty. -/
def updateFilter (m : TuiModel) (query : String) : TuiModel :=
  let q := query.toLower
  match m.searchPane with
  | .namespaces =>
    let f := filterIndices m.namespaces q
    { m with filteredNamespaces := optList f,
             namespaceCursor := if f.isEmpty then m.namespaceCursor else 0 }
  | .apps =>
    let f := filterIndices (m.apps.map (·.name)) q
    { m with filteredApps := optList f,
             appCursor := if f.isEmpty then m.appCursor else 0 }
  | .env =>
    let f := filterIndices (m.envVars.map (·.name)) q
    { m with filteredEnvVars := optList f,
             envCursor := if f.isEmpty then m.envCursor else 0 }

/-- `Model.searchMoveUp`. -/
def searchMoveUp (m : TuiModel) : TuiModel :=
  match m.searchPane with
  | .namespaces => if m.namespaceCursor > 0 then { m with namespaceCursor := m.namespaceCursor - 1 } else m
  | .apps => if m.appCursor > 0 then { m with appCursor := m.appCursor - 1 } else m
  | .env => if m.envCursor > 0 then { m with envCursor := m.envCursor - 1 } else m

/-- `Model.searchMoveDown`. -/
def searchMoveDown (m : TuiModel) : TuiModel :=
  match m.searchPane with
  | .namespaces =>
    let f := (m.filteredNamespaces.getD []).length
    if f > 0 && m.namespaceCursor < f - 1 then { m with namespaceCursor := m.namespaceCursor + 1 } else m
  | .apps =>
    let f := (m.filteredApps.getD []).length
    if f > 0 && m.appCursor < f - 1 then { m with appCursor := m.appCursor + 1 } else m
  | .env =>
    let f := (m.filteredEnvVars.getD []).length
    if f > 0 && m.envCursor < f - 1 then { m with envCursor := m.envCursor + 1 } else m

/-- `Model.applySearchSelection`: commit the filtered cursor's underlying index
as the pane selection and drop the filter. -/
def applySearchSelection (m : TuiModel) : TuiModel :=
  match m.searchPane with
  | .namespaces =>
    let f := m.filteredNamespaces.getD []
    let m := if f.length > 0 && m.namespaceCursor < f.length then
               { m with namespaceIdx := f.getD m.namespaceCursor 0 } else m
    { m with filteredNamespaces := none }
  | .apps =>
    let f := m.filteredApps.getD []
    let m := if f.length > 0 && m.appCursor < f.length then
               { m with appIdx := f.getD m.appCursor 0 } else m
    { m with filteredApps := none }
  | .env =>
    let f := m.filteredEnvVars.getD []
    let m := if f.length > 0 && m.envCursor < f.length then
               { m with envIdx := f.getD m.envCursor 0 } else m
    { m with filteredEnvVars := none }

/-- `Model.handleSearchMode`: enter commits and loads downstream, up/ctrl+p and
down/ctrl+n move, ctrl+c cancels, anything else feeds the text input and
recomputes the filter. -/
def handleSearchMode (m : TuiModel) (k : KeyMsg) : TuiModel × Cmd :=
  if k.s == "enter" then
    let m := applySearchSelection m
    let m := { m with viewMode := .normal, searchInput := "" }
    match m.searchPane with
    | .namespaces => ({ m with loading := true }, cmdLoadApps m)
    | .apps => ({ m with loading := true }, cmdLoadEnvVars m)
    | .env => (m, .none)
  else if k.s == "up" || k.s == "ctrl+p" then (searchMoveUp m, .none)
  else if k.s == "down" || k.s == "ctrl+n" then (searchMoveDown m, .none)
  else if k.s == "ctrl+c" then
    ({ m with viewMode := .normal, searchInput := "",
              filteredNamespaces := none, filteredApps := none, filteredEnvVars := none }, .none)
  else
    let m := { m with searchInput := textinputUpdate m.searchInput k }
    (updateFilter m m.searchInput, .none)

/-- `Model.handleUp` (normal mode). -/
def handleUpKey (m : TuiModel) : TuiModel × Cmd :=
  match m.activePane with
  | .namespaces => (if m.namespaceCursor > 0 then { m with namespaceCursor := m.namespaceCursor - 1 } else m, .none)
  | .apps => (if m.appCursor > 0 then { m with appCursor := m.appCursor - 1 } else m, .none)
  | .env => (if m.envCursor > 0 then { m with envCursor := m.envCursor - 1 } else m, .none)

/-- `Model.handleDown` (normal mode). -/
def handleDownKey (m : TuiModel) : TuiModel × Cmd :=
  match m.activePane with
  | .namespaces =>
    (if m.namespaceCursor < m.namespaces.length - 1 then { m with namespaceCursor := m.namespaceCursor + 1 } else m, .none)
  | .apps =>
    (if m.appCursor < m.apps.length - 1 then { m with appCursor := m.appCursor + 1 } else m, .none)
  | .env =>
    (if m.envCursor < m.envVars.length - 1 then { m with envCursor := m.envCursor + 1 } else m, .none)

/-- `Model.handleEnter` (normal mode): commit the cursor and trigger the
downstream load. -/
def handleEnterKey (m : TuiModel) : TuiModel × Cmd :=
  match m.activePane with
  | .namespaces =>
    if m.namespaceCursor < m.namespaces.length then
      let m := { m with namespaceIdx := m.namespaceCursor, loading := true }
      (m, cmdLoadApps m)
    else (m, .none)
  | .apps =>
    if m.appCursor < m.apps.length then
      let m := { m with appIdx := m.appCursor, loading := true }
      (m, cmdLoadEnvVars m)
    else (m, .none)
  | .env => (m, .none)

/-- `Model.handleRevealStart`: guarded entry into the reveal workflow. -/
def handleRevealStart (m : TuiModel) : TuiModel × Cmd :=
  if m.revealDisabled then
    ({ m with err := some "Reveal is disabled (ENVTOP_DISABLE_REVEAL=1)" }, .none)
  else if m.activePane ≠ .env then (m, .none)
  else if m.envVars.isEmpty || m.envCursor ≥ m.envVars.length then (m, .none)
  else
    let ev := m.envVars.getD m.envCursor {}
    if ev.isSecret then
      ({ m with viewMode := .revealMenu, revealMenuIdx := 0, revealedEnvName := ev.name }, .none)
    else (m, .none)

/-- `Model.handleRevealMenu`: choose Base64 / PlainText, then enter the
confirmation dialog with a reset text field. -/
def handleRevealMenu (m : TuiModel) (k : KeyMsg) : TuiModel × Cmd :=
  if matchesUp k then
    (if m.revealMenuIdx > 0 then { m with revealMenuIdx := m.revealMenuIdx - 1 } else m, .none)
  else if matchesDown k then
    (if m.revealMenuIdx < 1 then { m with revealMenuIdx := m.revealMenuIdx + 1 } else m, .none)
  else if matchesEnter k then
    ({ m with revealMode := if m.revealMenuIdx == 0 then .base64 else .plain,
              viewMode := .revealConfirm, revealInput := "" }, .blink)
  else (m, .none)

/-- `k8s.EncodeBase64` / `string(bytes)`: the revealed value bytes per mode. -/
def revealFormat (mode : RevealMode) (raw : List Nat) : List Nat :=
  match mode with
  | .base64 => strBytes (encodeBase64 raw)
  | .plain => raw

/-- `Model.handleRevealConfirm`: enter with the literal text "OK" reveals (the
first record with the targeted name, formatted per the chosen mode) and
schedules the 30-second timeout tick; enter with any other text returns the
model unchanged; other keys feed the text input. -/
def handleRevealConfirm (m : TuiModel) (k : KeyMsg) : TuiModel × Cmd :=
  if matchesEnter k then
    if m.revealInput == "OK" then
      let rv := match m.envVars.find? (fun ev => ev.name == m.revealedEnvName) with
        | some ev => revealFormat m.revealMode ev.rawValue
        | none => m.revealedValue
      ({ m with revealedValue := rv, viewMode := .revealShow }, .tickRevealTimeout 30)
    else (m, .none)
  else
    ({ m with revealInput := textinputUpdate m.revealInput k }, .none)

/-- `Model.handleRevealShow`: any key clears the revealed value and returns to
normal mode (the scheduled tick is not cancelled; no cancel command exists). -/
def handleRevealShow (m : TuiModel) (_k : KeyMsg) : TuiModel × Cmd :=
  ({ m with viewMode := .normal, revealedValue := [], revealedEnvName := "" }, .none)

/-- `Model.handleDiffStart`: only with an app selected and another namespace
available. -/
def handleDiffStart (m : TuiModel) : TuiModel × Cmd :=
  if m.apps.isEmpty || m.appCursor ≥ m.apps.length then (m, .none)
  else
    let currentNs := m.namespaces.getD m.namespaceIdx ""
    let dns := m.namespaces.filter (fun ns => ns ≠ currentNs)
    if dns.isEmpty then (m, .none)
    else ({ m with diffNamespaces := dns, viewMode := .diffSelect, diffNsIdx := 0 }, .none)

/-- `Model.handleDiffSelect`: navigate the namespace list; enter issues the
double resolve + compare as one command. -/
def handleDiffSelect (m : TuiModel) (k : KeyMsg) : TuiModel × Cmd :=
  if matchesUp k then
    (if m.diffNsIdx > 0 then { m with diffNsIdx := m.diffNsIdx - 1 } else m, .none)
  else if matchesDown k then
    (if m.diffNsIdx < m.diffNamespaces.length - 1 then { m with diffNsIdx := m.diffNsIdx + 1 } else m, .none)
  else if matchesEnter k then
    let nsA := m.namespaces.getD m.namespaceIdx ""
    let nsB := m.diffNamespaces.getD m.diffNsIdx ""
    let app := m.apps.getD m.appIdx {}
    ({ m with loading := true }, .loadDiff nsA nsB app.name app.kind)
  else (m, .none)

/-- `Model.handleDiffShow`: vertical scroll only. -/
def handleDiffShow (m : TuiModel) (k : KeyMsg) : TuiModel × Cmd :=
  if matchesUp k then
    (if m.diffCursor > 0 then { m with diffCursor := m.diffCursor - 1 } else m, .none)
  else if matchesDown k then
    (if m.diffCursor < m.diffResults.length - 1 then { m with diffCursor := m.diffCursor + 1 } else m, .none)
  else (m, .none)

/-- `Model.handleSearchStart`. -/
def handleSearchStart (m : TuiModel) : TuiModel × Cmd :=
  let m := { m with viewMode := .search, searchPane := m.activePane, searchInput := "" }
  (updateFilter m "", .blink)

/-- `Model.handleNormalMode`. -/
def handleNormalMode (m : TuiModel) (k : KeyMsg) : TuiModel × Cmd :=
  if matchesTab k then
    ({ m with activePane := match m.activePane with
                            | .namespaces => .apps | .apps => .env | .env => .namespaces }, .none)
  else if matchesShiftTab k then
    ({ m with activePane := match m.activePane with
                            | .namespaces => .env | .apps => .namespaces | .env => .apps }, .none)
  else if matchesLeft k then
    ({ m with activePane := match m.activePane with
                            | .namespaces => .namespaces | .apps => .namespaces | .env => .apps }, .none)
  else if matchesRight k then
    ({ m with activePane := match m.activePane with
                            | .namespaces => .apps | .apps => .env | .env => .env }, .none)
  else if matchesUp k then handleUpKey m
  else if matchesDown k then handleDownKey m
  else if matchesEnter k then handleEnterKey m
  else if matchesReveal k then handleRevealStart m
  else if matchesDiff k then handleDiffStart m
  else if matchesSearch k then handleSearchStart m
  else (m, .none)

/-- `Model.handleKeyPress`: quit only in normal mode; search mode next; then
esc/cancel aborts the guarded workflows; then the per-mode handler. -/
def handleKeyPress (m : TuiModel) (k : KeyMsg) : TuiModel × Cmd :=
  if matchesQuit k && m.viewMode == .normal then (m, .quit)
  else if m.viewMode == .search then
    if matchesBack k then
      ({ m with viewMode := .normal, searchInput := "",
                filteredNamespaces := none, filteredApps := none, filteredEnvVars := none }, .none)
    else handleSearchMode m k
  else if (matchesBack k || matchesCancel k) &&
          (m.viewMode == .revealMenu || m.viewMode == .revealConfirm ||
           m.viewMode == .revealShow || m.viewMode == .diffSelect || m.viewMode == .diffShow) then
    match m.viewMode with
    | .revealMenu | .revealConfirm | .revealShow =>
      ({ m with viewMode := .normal, revealInput := "", revealedValue := [] }, .none)
    | .diffSelect => ({ m with viewMode := .normal }, .none)
    | _ => ({ m with viewMode := .normal, diffResults := [] }, .none)
  else
    match m.viewMode with
    | .normal => handleNormalMode m k
    | .search => (m, .none)
    | .revealMenu => handleRevealMenu m k
    | .revealConfirm => handleRevealConfirm m k
    | .revealShow => handleRevealShow m k
    | .diffSelect => handleDiffSelect m k
    | .diffShow => handleDiffShow m k

/-- `Model.Update` (model.go).  Note that the `revealTimeoutMsg` case clears
the revealed value and forces normal mode without inspecting the current view
mode. -/
def update (m : TuiModel) (msg : Msg) : TuiModel × Cmd :=
  match msg with
  | .windowSize w h => ({ m with width := w, height := h }, .none)
  | .namespacesLoaded ns =>
    let m := { m with namespaces := ns, loading := false }
    if ns.length > 0 then (m, cmdLoadApps m) else (m, .none)
  | .appsLoaded apps =>
    let m := { m with apps := apps, appIdx := 0, appCursor := 0, loading := false }
    if apps.length > 0 then (m, cmdLoadEnvVars m) else (m, .none)
  | .envVarsLoaded envVars =>
    ({ m with envVars := envVars, envIdx := 0, envCursor := 0, loading := false }, .none)
  | .diffLoaded results nsA nsB appName =>
    ({ m with diffResults := results, diffNsA := nsA, diffNsB := nsB,
              diffAppName := appName, diffCursor := 0, viewMode := .diffShow,
              loading := false }, .none)
  | .errorMsg e => ({ m with err := some e, loading := false }, .none)
  | .revealTimeout =>
    ({ m with revealedValue := [], revealedEnvName := "", viewMode := .normal }, .none)
  | .key k => handleKeyPress m k

/-! ## Specification-side view of the resolve pipeline

`collectAll` is the flat collection order the spec describes: containers in
declared order followed by init containers, and within each container the
`envFrom` sources (in order) before the discrete `env` entries (in order),
with failing sources/entries contributing nothing.  `dedupFirstWins` keeps
the first occurrence of every name.  The lemmas below show the interleaved
loop of `resolveFromPodSpec` computes exactly
`sortByName (dedupFirstWins [] (collectAll ...))`. -/

/-- The records one `envFrom` source contributes ([] when its fetch fails). -/
def envFromVarsOr (st : Cluster) (ns : String) (ef : EnvFromSource) : List EnvVar :=
  match resolveEnvFrom st ns ef with
  | .ok vars => vars
  | .error _ => []

/-- All records one container contributes, in processing order. -/
def containerVars (st : Cluster) (ns : String) (c : Container) : List EnvVar :=
  (c.envFrom.map (envFromVarsOr st ns)).flatten ++
    c.env.filterMap (fun e => (resolveEnvVar st ns e).toOption)

/-- All records a pod spec contributes, in processing order. -/
def collectAll (st : Cluster) (ns : String) (ps : PodSpec) : List EnvVar :=
  ((ps.containers ++ ps.initContainers).map (containerVars st ns)).flatten

/-- First-occurrence-wins dedup: a record whose name was already seen is
dropped, the rest are kept in order. -/
def dedupFirstWins (seen : List String) : List EnvVar → List EnvVar
  | [] => []
  | v :: vs =>
    if seen.contains v.name then dedupFirstWins seen vs
    else v :: dedupFirstWins (v.name :: seen) vs

/-- The seen-name set after processing a record list. -/
def seenAfter (seen : List String) : List EnvVar → List String
  | [] => seen
  | v :: vs =>
    if seen.contains v.name then seenAfter seen vs
    else seenAfter (v.name :: seen) vs

/-- The well-formedness of a hash-displayed record: `hashPrefix` is the
lowercase hex of the first 4 digest bytes of the raw value, it is 8 hex
characters, and the display value is exactly `"HASH: "` followed by it. -/
def hashOk (r : EnvVar) : Prop :=
  r.hash = hexBytes ((sha256 r.rawValue).take 4) ∧
  r.hash.length = 8 ∧
  (∀ c ∈ r.hash.data, c ∈ "0123456789abcdef".data) ∧
  r.value = "HASH: " ++ r.hash

/-! ## Per-record invariants of resolved records -/

/-- The value-length bookkeeping the code actually performs:
`valueLen = len(rawBytes)` for Secret/SealedSecret records, and
`valueLen = len(displayValue)` for plain records except the synthesized
annotations (the optional-not-found placeholder, field and resource
references, and the unknown-source fallback), whose `valueLen` stays 0. -/
def valueLenOk (r : EnvVar) : Prop :=
  ((r.sourceKind = .secret ∨ r.sourceKind = .sealedSecret) → r.valueLen = r.rawValue.length) ∧
  (r.sourceKind = .configMap →
    r.valueLen = goLen r.value ∨ (r.value = "(optional, not found)" ∧ r.valueLen = 0)) ∧
  (r.sourceKind = .inline →
    r.valueLen = goLen r.value ∨ (r.value = "(unknown source)" ∧ r.valueLen = 0)) ∧
  ((r.sourceKind = .fieldRef ∨ r.sourceKind = .resourceRef) →
    r.valueLen = 0 ∧ r.rawValue = [])

/-! ## Diff engine lemmas -/

/-- The claim's side swap on statuses: `ONLY_IN_A` and `ONLY_IN_B` are
exchanged, `SAME` and `VALUE_DIFF` are fixed. -/
def swapStatus : DiffStatus → DiffStatus
  | .onlyInA => .onlyInB
  | .onlyInB => .onlyInA
  | .same => .same
  | .valueDiff => .valueDiff

/-- The claim's side swap on one diff row. -/
def swapResult (r : DiffResult) : DiffResult :=
  { name := r.name, envA := r.envB, envB := r.envA, status := swapStatus r.status }

/-! ## The claims -/

/-- The cluster of the C1 counterexample: no objects exist at all. -/
def c1Cluster : Cluster := {}

/-- A discrete, non-optional single-key ConfigMap reference to a missing
object. -/
def c1BadEntry : CoreEnvVar :=
  { name := "A", valueFrom := some { configMapKeyRef := some { name := "missing", key := "k" } } }

/-- A pod spec whose single container has the failing entry followed by a
plain inline entry. -/
def c1Pod : PodSpec :=
  { containers := [{ env := [c1BadEntry, { name := "B", value := "v" }] }] }

/-- Side A of the C3 witness lists (records shaped like the spec's
end-to-end diff example). -/
def c3A : List EnvVar :=
  [{ name := "PWD", value := "HASH: aa11bb22", sourceKind := .secret, hash := "aa11bb22" },
   { name := "FOO", value := "x", sourceKind := .configMap, valueLen := 1 }]

/-- Side B of the C3 witness lists. -/
def c3B : List EnvVar :=
  [{ name := "PWD", value := "HASH: cc33dd44", sourceKind := .secret, hash := "cc33dd44" }]

/-- Side A of the C4 witness lists. -/
def c4A : List EnvVar :=
  [{ name := "ONLYA", value := "1", sourceKind := .inline, valueLen := 1 },
   { name := "S", value := "HASH: aa11bb22", sourceKind := .secret, hash := "aa11bb22" }]

/-- Side B of the C4 witness lists. -/
def c4B : List EnvVar :=
  [{ name := "S", value := "HASH: aa11bb22", sourceKind := .sealedSecret, hash := "aa11bb22",
     isSealed := true }]

/-- The secret record used by the C5 witness. -/
def c5Secret : EnvVar :=
  { name := "PWD", value := "HASH: f52fbd32", rawValue := strBytes "hunter2",
    sourceKind := .secret, valueLen := 7, hash := "f52fbd32" }

/-- A model sitting in `RevealConfirm` with lowercase "ok" typed. -/
def c5Model : TuiModel :=
  { viewMode := .revealConfirm, revealInput := "ok", revealedEnvName := "PWD",
    envVars := [c5Secret], activePane := .env }

/-- The same model with the exact confirmation text typed. -/
def c5ModelOk : TuiModel := { c5Model with revealInput := "OK" }

/-- The C6 counterexample record: the optional-not-found Secret placeholder is
of Secret kind but has an empty hash (not 8 hex characters of any digest) and
a display value that is not `"HASH: " + hashPrefix`. -/
def c6Record : EnvVar :=
  { name := "X", value := "(optional, not found)", sourceName := "s", sourceKind := .secret }

/-- A discrete optional Secret reference to a missing Secret. -/
def c6Entry : CoreEnvVar :=
  { name := "X",
    valueFrom := some { secretKeyRef := some { name := "s", key := "k", optional := some true } } }

/-- The cluster of the C6 witness: one Secret holding the spec's example
value. -/
def c6St : Cluster := { secrets := [(("ns", "sec"), [("k", strBytes "hunter2")])] }

/-- A discrete Secret key reference resolved by the C6 witness. -/
def c6GoodEntry : CoreEnvVar :=
  { name := "PWD", valueFrom := some { secretKeyRef := some { name := "sec", key := "k" } } }

/-- The record the C6 witness resolves to. -/
def c6GoodRec : EnvVar :=
  { name := "PWD", rawValue := strBytes "hunter2", value := "HASH: f52fbd32",
    sourceName := "sec", sourceKind := .secret, valueLen := 7, hash := "f52fbd32" }

/-- The C7 counterexample entry: a FieldRef env entry. -/
def c7Entry : CoreEnvVar :=
  { name := "F", valueFrom := some { fieldRef := some "metadata.name" } }

/-- The record it resolves to: `valueLen` stays 0 although the display value
is 23 bytes long. -/
def c7Record : EnvVar :=
  { name := "F", value := "fieldRef: metadata.name", sourceKind := .fieldRef }

/-- The secret record shown during the C8 trace. -/
def c8Secret : EnvVar :=
  { name := "PWD", value := "HASH: f52fbd32", rawValue := strBytes "hunter2",
    sourceKind := .secret, valueLen := 7, hash := "f52fbd32" }

/-- The C8 trace, step 0: a reveal is showing (its 30-second tick is
pending). -/
def c8Show : TuiModel :=
  { viewMode := .revealShow, activePane := .env, envVars := [c8Secret],
    revealedValue := strBytes "hunter2", revealedEnvName := "PWD" }

/-- Step 1: a keypress dismisses the reveal early. -/
def c8AfterDismiss : TuiModel := (update c8Show (.key ⟨"x"⟩)).1

/-- Step 2: the user starts a new reveal of the same record. -/
def c8NewMenu : TuiModel := (update c8AfterDismiss (.key ⟨"r"⟩)).1

/-- Step 3: the user picks the display mode and reaches the confirmation
dialog. -/
def c8NewConfirm : TuiModel := (update c8NewMenu (.key ⟨"enter"⟩)).1

/-- Step 4: the first reveal's stale 30-second timeout message is delivered. -/
def c8AfterStaleTimeout : TuiModel := (update c8NewConfirm .revealTimeout).1

/-- A model in search mode used by the C9 witness. -/
def c9Model : TuiModel := { viewMode := .search }

/-- The cluster of the C10 witness: the objects exist but lack the requested
key. -/
def c10St : Cluster :=
  { configMaps := [(("ns", "cm"), [("other", "x")])],
    secrets := [(("ns", "sec"), [("other", [1, 2])])] }

/-- A discrete ConfigMap reference to a missing key of an existing ConfigMap. -/
def c10CmEntry : CoreEnvVar :=
  { name := "A", valueFrom := some { configMapKeyRef := some { name := "cm", key := "missing" } } }

/-- A discrete Secret reference to a missing key of an existing Secret. -/
def c10SecEntry : CoreEnvVar :=
  { name := "B", valueFrom := some { secretKeyRef := some { name := "sec", key := "missing" } } }

/-! ## Theorems -/

theorem charToNat_inj {c d : Char} (h : c.toNat = d.toNat) : c = d := by
  cases c; cases d
  simp only [Char.toNat] at h
  congr 1
  exact UInt32.ext h

theorem charListLe_total : ∀ as bs, charListLe as bs = true ∨ charListLe bs as = true
  | [], _ => Or.inl rfl
  | _ :: _, [] => Or.inr rfl
  | a :: as, b :: bs => by
    by_cases hab : a.toNat < b.toNat
    · exact Or.inl (by simp [charListLe, hab])
    · by_cases hba : b.toNat < a.toNat
      · exact Or.inr (by simp [charListLe, hba, hab])
      · rcases charListLe_total as bs with h | h
        · exact Or.inl (by simp [charListLe, hab, hba, h])
        · exact Or.inr (by simp [charListLe, hab, hba, h])

theorem charListLe_trans : ∀ as bs cs, charListLe as bs = true → charListLe bs cs = true →
    charListLe as cs = true
  | [], _, _, _, _ => rfl
  | a :: as, b :: bs, [], _, h2 => by simp [charListLe] at h2
  | a :: as, [], cs, h1, _ => by simp [charListLe] at h1
  | a :: as, b :: bs, c :: cs, h1, h2 => by
    simp only [charListLe] at h1 h2 ⊢
    split at h1
    · rename_i hab
      split at h2
      · rename_i hbc
        rw [if_pos (by omega)]
      · split at h2
        · cases h2
        · rename_i hbc hcb
          rw [if_pos (by omega)]
    · split at h1
      · cases h1
      · rename_i hab hba
        split at h2
        · rename_i hbc
          rw [if_pos (by omega)]
        · split at h2
          · cases h2
          · rename_i hbc hcb
            rw [if_neg (by omega), if_neg (by omega)]
            exact charListLe_trans as bs cs h1 h2

theorem charListLe_antisymm : ∀ as bs, charListLe as bs = true → charListLe bs as = true →
    as = bs
  | [], [], _, _ => rfl
  | [], _ :: _, _, h2 => by simp [charListLe] at h2
  | _ :: _, [], h1, _ => by simp [charListLe] at h1
  | a :: as, b :: bs, h1, h2 => by
    simp only [charListLe] at h1 h2
    by_cases hab : a.toNat < b.toNat <;> by_cases hba : b.toNat < a.toNat <;> simp_all
    · omega
    · exact ⟨charToNat_inj (by omega), charListLe_antisymm as bs h1 h2⟩

theorem goStrLe_total (a b : String) : goStrLe a b = true ∨ goStrLe b a = true :=
  charListLe_total a.data b.data

theorem goStrLe_trans {a b c : String} (h1 : goStrLe a b = true) (h2 : goStrLe b c = true) :
    goStrLe a c = true :=
  charListLe_trans a.data b.data c.data h1 h2

theorem goStrLe_antisymm {a b : String} (h1 : goStrLe a b = true) (h2 : goStrLe b a = true) :
    a = b :=
  String.ext (charListLe_antisymm a.data b.data h1 h2)

theorem goStrLe_refl (a : String) : goStrLe a a = true := by
  rcases goStrLe_total a a with h | h <;> exact h

/-- Test vector: the hash prefix of the spec's example secret value. -/
theorem hashValue_vector_hunter2 : hashValue (strBytes "hunter2") = "f52fbd32" := by decide

/-- Test vector: the hash prefix of the empty byte string. -/
theorem hashValue_vector_empty : hashValue [] = "e3b0c442" := by decide

/-- Test vector: the FIPS 180-4 digest of "abc". -/
theorem sha256_vector_abc : hexBytes (sha256 (strBytes "abc")) =
    "ba7816bf8f01cfea414140de5dae2223b00361a396177a9cb410ff61f20015ad" := by decide

/-- Test vector: standard base64 of the spec's example secret value. -/
theorem encodeBase64_vector_hunter2 : encodeBase64 (strBytes "hunter2") = "aHVudGVyMg==" := by decide

theorem addVars_append (p : List String × List EnvVar) (xs ys : List EnvVar) :
    addVars p (xs ++ ys) = addVars (addVars p xs) ys := by
  induction xs generalizing p with
  | nil => rfl
  | cons v vs ih =>
    simp only [List.cons_append, addVars]
    by_cases hc : v.name ∈ p.1 <;> simp [hc, ih]

theorem addVars_eq (seen : List String) (acc vs : List EnvVar) :
    addVars (seen, acc) vs = (seenAfter seen vs, acc ++ dedupFirstWins seen vs) := by
  induction vs generalizing seen acc with
  | nil => simp [addVars, seenAfter, dedupFirstWins]
  | cons v vs ih =>
    by_cases hc : v.name ∈ seen <;>
      simp [addVars, seenAfter, dedupFirstWins, hc, ih]

theorem envFromLoop_eq (st : Cluster) (ns : String) (p : List String × List EnvVar)
    (efs : List EnvFromSource) :
    envFromLoop st ns p efs = addVars p ((efs.map (envFromVarsOr st ns)).flatten) := by
  induction efs generalizing p with
  | nil => rfl
  | cons ef efs ih =>
    simp only [envFromLoop, List.map_cons, List.flatten_cons, addVars_append]
    cases h : resolveEnvFrom st ns ef with
    | error e => simp [envFromVarsOr, h, ih, addVars]
    | ok vars => simp [envFromVarsOr, h, ih]

theorem except_toOption_ok {ε α : Type} (a : α) : (Except.ok a : Except ε α).toOption = some a :=
  rfl

theorem except_toOption_error {ε α : Type} (e : ε) :
    (Except.error e : Except ε α).toOption = none :=
  rfl

theorem envLoop_eq (st : Cluster) (ns : String) (p : List String × List EnvVar)
    (es : List CoreEnvVar) :
    envLoop st ns p es =
      addVars p (es.filterMap (fun e => (resolveEnvVar st ns e).toOption)) := by
  induction es generalizing p with
  | nil => rfl
  | cons e es ih =>
    simp only [envLoop, List.filterMap_cons]
    cases h : resolveEnvVar st ns e with
    | error u => simp only [h, except_toOption_error, ih]
    | ok v =>
      simp only [h, except_toOption_ok]
      by_cases hc : v.name ∈ p.1 <;> simp [addVars, hc, ih]

theorem containerLoop_eq (st : Cluster) (ns : String) (p : List String × List EnvVar)
    (c : Container) : containerLoop st ns p c = addVars p (containerVars st ns c) := by
  simp [containerLoop, containerVars, envFromLoop_eq, envLoop_eq, addVars_append]

theorem foldl_containerLoop_eq (st : Cluster) (ns : String) (cs : List Container)
    (p : List String × List EnvVar) :
    cs.foldl (containerLoop st ns) p = addVars p ((cs.map (containerVars st ns)).flatten) := by
  induction cs generalizing p with
  | nil => rfl
  | cons c cs ih => simp [List.foldl_cons, containerLoop_eq, ih, addVars_append]

/-- The interleaved dedup loop of `resolveFromPodSpec` equals first-wins dedup
of the flat collection order, then the name sort. -/
theorem resolveFromPodSpec_eq (st : Cluster) (ns : String) (ps : PodSpec) :
    resolveFromPodSpec st ns ps =
      .ok (sortByName (dedupFirstWins [] (collectAll st ns ps))) := by
  simp only [resolveFromPodSpec, foldl_containerLoop_eq, addVars_eq, List.nil_append]
  rfl

theorem mem_dedupFirstWins {r : EnvVar} {seen : List String} {vs : List EnvVar}
    (h : r ∈ dedupFirstWins seen vs) : r ∈ vs := by
  induction vs generalizing seen with
  | nil => simp [dedupFirstWins] at h
  | cons v vs ih =>
    rw [dedupFirstWins] at h
    by_cases hc : v.name ∈ seen
    · rw [if_pos (List.elem_iff.mpr hc)] at h
      exact List.mem_cons_of_mem _ (ih h)
    · rw [if_neg (fun hb => hc (List.elem_iff.mp hb))] at h
      rcases List.mem_cons.mp h with h | h
      · exact h ▸ List.mem_cons_self _ _
      · exact List.mem_cons_of_mem _ (ih h)

theorem mem_sortByName {r : EnvVar} {l : List EnvVar} : r ∈ sortByName l ↔ r ∈ l :=
  (List.perm_insertionSort _ l).mem_iff

/-! ## Shape lemmas about the SHA-256 digest and its hex encoding -/

theorem beBytes_length (n x : Nat) : (beBytes n x).length = n := by
  induction n generalizing x with
  | zero => rfl
  | succ n ih => simp [beBytes, ih]

theorem compressStep_length (st : List Nat) (kw : Nat × Nat) :
    (compressStep st kw).length = st.length := by
  unfold compressStep
  split <;> rfl

theorem foldl_compressStep_length (l : List (Nat × Nat)) (st : List Nat) :
    (l.foldl compressStep st).length = st.length := by
  induction l generalizing st with
  | nil => rfl
  | cons kw l ih => simp [List.foldl_cons, ih, compressStep_length]

theorem processBlock_length (h0 block : List Nat) :
    (processBlock h0 block).length = h0.length := by
  simp [processBlock, List.length_zip, foldl_compressStep_length]

theorem foldl_processBlock_length (bs : List (List Nat)) (h0 : List Nat) :
    (bs.foldl processBlock h0).length = h0.length := by
  induction bs generalizing h0 with
  | nil => rfl
  | cons b bs ih => simp [List.foldl_cons, ih, processBlock_length]

theorem flatten_beBytes4_length (l : List Nat) :
    ((l.map (beBytes 4)).flatten).length = 4 * l.length := by
  induction l with
  | nil => rfl
  | cons w l ih => simp [List.flatten_cons, beBytes_length, ih]; ring

/-- A SHA-256 digest is 32 bytes. -/
theorem sha256_length (msg : List Nat) : (sha256 msg).length = 32 := by
  simp only [sha256, flatten_beBytes4_length, foldl_processBlock_length]
  rfl

theorem hexBytes_length (bs : List Nat) : (hexBytes bs).length = 2 * bs.length := by
  induction bs with
  | nil => rfl
  | cons b bs ih =>
    show (hexByte b ++ hexBytes bs).length = _
    simp [String.length_append, ih, hexByte]
    ring

theorem list_getD_mem {α : Type} (l : List α) (n : Nat) (d : α) (hd : d ∈ l) :
    l.getD n d ∈ l := by
  rw [List.getD_eq_getElem?_getD]
  cases h : l[n]? with
  | none => simpa using hd
  | some a =>
    simp only [Option.getD_some]
    exact List.getElem?_mem h

theorem hexDigit_mem (n : Nat) : hexDigit n ∈ "0123456789abcdef".data := by
  exact list_getD_mem _ _ _ (by decide)

theorem hexBytes_chars (bs : List Nat) :
    ∀ c ∈ (hexBytes bs).data, c ∈ "0123456789abcdef".data := by
  induction bs with
  | nil => intro c hc; cases hc
  | cons b bs ih =>
    intro c hc
    rw [show hexBytes (b :: bs) = hexByte b ++ hexBytes bs from rfl,
        String.data_append] at hc
    rcases List.mem_append.mp hc with hc | hc
    · rcases List.mem_cons.mp hc with h | hc2
      · exact h ▸ hexDigit_mem _
      · rcases List.mem_cons.mp hc2 with h | h
        · exact h ▸ hexDigit_mem _
        · cases h
    · exact ih c hc

/-- `hashValue` always satisfies the shape part of `hashOk`. -/
theorem hashValue_shape (v : List Nat) :
    hashValue v = hexBytes ((sha256 v).take 4) ∧ (hashValue v).length = 8 ∧
    ∀ c ∈ (hashValue v).data, c ∈ "0123456789abcdef".data := by
  refine ⟨rfl, ?_, hexBytes_chars _⟩
  rw [hashValue, hexBytes_length, List.length_take, sha256_length]
  decide

/-- Every record of a resolve result was produced by a successful `envFrom`
source resolution or a successful discrete entry resolution. -/
theorem mem_resolve_cases {st : Cluster} {ns : String} {ps : PodSpec} {l : List EnvVar}
    {r : EnvVar} (h : resolveFromPodSpec st ns ps = .ok l) (hr : r ∈ l) :
    (∃ ef vars, resolveEnvFrom st ns ef = .ok vars ∧ r ∈ vars) ∨
    (∃ e, resolveEnvVar st ns e = .ok r) := by
  rw [resolveFromPodSpec_eq] at h
  cases h
  have hmem : r ∈ collectAll st ns ps := mem_dedupFirstWins (mem_sortByName.mp hr)
  simp only [collectAll, List.mem_flatten, List.mem_map] at hmem
  obtain ⟨_, ⟨c, _, rfl⟩, hc⟩ := hmem
  simp only [containerVars, List.mem_append, List.mem_flatten, List.mem_map,
    List.mem_filterMap] at hc
  rcases hc with ⟨_, ⟨ef, _, rfl⟩, hef⟩ | ⟨e, _, he⟩
  · cases hok : resolveEnvFrom st ns ef with
    | error u => rw [envFromVarsOr, hok] at hef; cases hef
    | ok vars => exact Or.inl ⟨ef, vars, hok, by rwa [envFromVarsOr, hok] at hef⟩
  · cases hok : resolveEnvVar st ns e with
    | error u => rw [hok] at he; cases he
    | ok v => rw [hok] at he; cases he; exact Or.inr ⟨e, hok⟩

/-- Every record a successful `resolveEnvVar` produces satisfies `valueLenOk`. -/
theorem resolveEnvVar_valueLenOk (st : Cluster) (ns : String) (e : CoreEnvVar)
    (r : EnvVar) (h : resolveEnvVar st ns e = .ok r) : valueLenOk r := by
  unfold resolveEnvVar at h
  split at h
  · cases h; simp [valueLenOk]
  · split at h
    · cases h; simp [valueLenOk, goLen, strBytes]
    · split at h
      · split at h
        · split at h
          · cases h; simp [valueLenOk]
          · cases h
        · cases h; simp [valueLenOk]
      · split at h
        · split at h
          · split at h
            · cases h; simp [valueLenOk]
            · cases h
          · cases h
            refine ⟨fun _ => rfl, fun hk => ?_, fun hk => ?_, fun hk => ?_⟩
            · split at hk <;> cases hk
            · split at hk <;> cases hk
            · rcases hk with hk | hk <;> split at hk <;> cases hk
        · split at h
          · cases h; simp [valueLenOk]
          · split at h
            · cases h; simp [valueLenOk]
            · cases h; simp [valueLenOk]

/-- Every record a successful `resolveEnvFrom` produces satisfies `valueLenOk`. -/
theorem resolveEnvFrom_valueLenOk (st : Cluster) (ns : String) (ef : EnvFromSource)
    (vars : List EnvVar) (h : resolveEnvFrom st ns ef = .ok vars) :
    ∀ r ∈ vars, valueLenOk r := by
  have hcm : ∀ pfx name data r, r ∈ cmFromVars pfx name data → valueLenOk r := by
    intro pfx name data r hr
    simp only [cmFromVars, List.mem_map] at hr
    obtain ⟨kv, _, rfl⟩ := hr
    simp [valueLenOk]
  have hsec : ∀ ns2 pfx name data r, r ∈ secFromVars st ns2 pfx name data → valueLenOk r := by
    intro ns2 pfx name data r hr
    simp only [secFromVars, List.mem_map] at hr
    obtain ⟨kv, _, rfl⟩ := hr
    refine ⟨fun _ => rfl, fun hk => ?_, fun hk => ?_, fun hk => ?_⟩
    · split at hk <;> cases hk
    · split at hk <;> cases hk
    · rcases hk with hk | hk <;> split at hk <;> cases hk
  intro r hr
  unfold resolveEnvFrom at h
  split at h
  · cases h
  · rename_i vars0 heq0
    have hvars0 : ∀ r ∈ vars0, valueLenOk r := by
      unfold resolveEnvFromCm at heq0
      split at heq0
      · cases heq0; intro r hr0; cases hr0
      · split at heq0
        · split at heq0
          · cases heq0; intro r hr0; cases hr0
          · cases heq0
        · cases heq0; exact hcm _ _ _
    split at h
    · cases h; exact hvars0 r hr
    · split at h
      · split at h
        · cases h; exact hvars0 r hr
        · cases h
      · cases h
        rcases List.mem_append.mp hr with hr | hr
        · exact hvars0 r hr
        · exact hsec _ _ _ _ _ hr

/-- Every secret-kind record a successful `resolveEnvVar` produces is either
the optional-not-found placeholder or a properly hashed record. -/
theorem resolveEnvVar_hashOk (st : Cluster) (ns : String) (e : CoreEnvVar)
    (r : EnvVar) (h : resolveEnvVar st ns e = .ok r) (hs : r.isSecret = true) :
    (r.value = "(optional, not found)" ∧ r.hash = "" ∧ r.rawValue = []) ∨ hashOk r := by
  unfold resolveEnvVar at h
  split at h
  · cases h; simp [EnvVar.isSecret] at hs
  · split at h
    · cases h; simp [EnvVar.isSecret] at hs
    · split at h
      · split at h
        · split at h
          · cases h; simp [EnvVar.isSecret] at hs
          · cases h
        · cases h; simp [EnvVar.isSecret] at hs
      · split at h
        · split at h
          · split at h
            · cases h; exact Or.inl ⟨rfl, rfl, rfl⟩
            · cases h
          · cases h
            refine Or.inr ⟨(hashValue_shape _).1, (hashValue_shape _).2.1,
              (hashValue_shape _).2.2, rfl⟩
        · split at h
          · cases h; simp [EnvVar.isSecret] at hs
          · split at h
            · cases h; simp [EnvVar.isSecret] at hs
            · cases h; simp [EnvVar.isSecret] at hs

/-- Every secret-kind record a successful `resolveEnvFrom` produces is
properly hashed. -/
theorem resolveEnvFrom_hashOk (st : Cluster) (ns : String) (ef : EnvFromSource)
    (vars : List EnvVar) (h : resolveEnvFrom st ns ef = .ok vars) :
    ∀ r ∈ vars, r.isSecret = true → hashOk r := by
  have hcm : ∀ pfx name data r, r ∈ cmFromVars pfx name data → r.isSecret = true → hashOk r := by
    intro pfx name data r hr hs
    simp only [cmFromVars, List.mem_map] at hr
    obtain ⟨kv, _, rfl⟩ := hr
    simp [EnvVar.isSecret] at hs
  have hsec : ∀ ns2 pfx name data r, r ∈ secFromVars st ns2 pfx name data → hashOk r := by
    intro ns2 pfx name data r hr
    simp only [secFromVars, List.mem_map] at hr
    obtain ⟨kv, _, rfl⟩ := hr
    exact ⟨(hashValue_shape _).1, (hashValue_shape _).2.1, (hashValue_shape _).2.2, rfl⟩
  intro r hr hs
  unfold resolveEnvFrom at h
  split at h
  · cases h
  · rename_i vars0 heq0
    have hvars0 : ∀ r ∈ vars0, r.isSecret = true → hashOk r := by
      unfold resolveEnvFromCm at heq0
      split at heq0
      · cases heq0; intro r hr0; cases hr0
      · split at heq0
        · split at heq0
          · cases heq0; intro r hr0; cases hr0
          · cases heq0
        · cases heq0; exact hcm _ _ _
    split at h
    · cases h; exact hvars0 r hr hs
    · split at h
      · split at h
        · cases h; exact hvars0 r hr hs
        · cases h
      · cases h
        rcases List.mem_append.mp hr with hr | hr
        · exact hvars0 r hr hs
        · exact hsec _ _ _ _ _ hr

theorem unionNames_nodup (envsA envsB : List EnvVar) : (unionNames envsA envsB).Nodup :=
  (List.perm_insertionSort _ _).nodup_iff.mpr (List.nodup_dedup _)

theorem unionNames_sorted (envsA envsB : List EnvVar) :
    List.Pairwise (fun a b => goStrLe a b = true) (unionNames envsA envsB) := by
  haveI : IsTotal String (fun a b => goStrLe a b = true) := ⟨goStrLe_total⟩
  haveI : IsTrans String (fun a b => goStrLe a b = true) := ⟨fun _ _ _ => goStrLe_trans⟩
  exact List.sorted_insertionSort _ _

theorem mem_unionNames {envsA envsB : List EnvVar} {n : String} :
    n ∈ unionNames envsA envsB ↔ n ∈ namesOf envsA ∨ n ∈ namesOf envsB := by
  rw [unionNames, (List.perm_insertionSort _ _).mem_iff, List.mem_dedup, List.mem_append]

theorem unionNames_comm (envsA envsB : List EnvVar) :
    unionNames envsB envsA = unionNames envsA envsB := by
  haveI : IsAntisymm String (fun a b => goStrLe a b = true) := ⟨fun _ _ => goStrLe_antisymm⟩
  refine List.eq_of_perm_of_sorted
    (List.perm_ext_iff_of_nodup (unionNames_nodup _ _) (unionNames_nodup _ _) |>.mpr ?_)
    (unionNames_sorted _ _) (unionNames_sorted _ _)
  intro n
  rw [mem_unionNames, mem_unionNames, or_comm]

theorem lookupLast_isSome {l : List EnvVar} {n : String} :
    (lookupLast l n).isSome ↔ n ∈ namesOf l := by
  rw [lookupLast, List.find?_isSome]
  simp only [namesOf]
  constructor
  · rintro ⟨v, hv, hpred⟩
    have hvn : v.name = n := by simpa using hpred
    exact hvn ▸ List.mem_map_of_mem _ (List.mem_reverse.mp hv)
  · intro hn
    rcases List.mem_map.mp hn with ⟨v, hv, rfl⟩
    exact ⟨v, List.mem_reverse.mpr hv, by simp⟩

theorem lookupLast_name_mem {l : List EnvVar} {n : String} {v : EnvVar}
    (h : lookupLast l n = some v) : v.name = n ∧ v ∈ l := by
  refine ⟨by simpa using List.find?_some h, ?_⟩
  have := List.mem_of_find?_eq_some h
  exact List.mem_reverse.mp this

theorem diffStatusPair_swap (a b : Option EnvVar) (hne : a.isSome ∨ b.isSome) :
    diffStatusPair b a = swapStatus (diffStatusPair a b) := by
  match a, b with
  | none, none => simp at hne
  | none, some b => rfl
  | some a, none => rfl
  | some a, some b =>
    simp only [diffStatusPair]
    by_cases hs : (a.isSecret || b.isSecret) = true
    · have hs2 : (b.isSecret || a.isSecret) = true := by
        rcases Bool.or_eq_true_iff.mp hs with h | h <;> simp [h]
      rw [if_pos hs2, if_pos hs]
      by_cases hh : a.hash = b.hash
      · rw [if_pos (by simp [hh]), if_pos (by simp [hh])]; rfl
      · rw [if_neg (by simp; exact fun h => hh h.symm), if_neg (by simp [hh])]; rfl
    · have hs2 : ¬(b.isSecret || a.isSecret) = true := by
        simp only [Bool.or_eq_true] at hs ⊢; tauto
      rw [if_neg hs2, if_neg hs]
      by_cases hv : a.value = b.value
      · rw [if_pos (by simp [hv]), if_pos (by simp [hv])]; rfl
      · rw [if_neg (by simp; exact fun h => hv h.symm), if_neg (by simp [hv])]; rfl

theorem compareEnvVars_swap (envsA envsB : List EnvVar) :
    compareEnvVars envsB envsA = (compareEnvVars envsA envsB).map swapResult := by
  rw [compareEnvVars, compareEnvVars, unionNames_comm, List.map_map]
  refine List.map_congr_left ?_
  intro n hn
  have hne : (lookupLast envsA n).isSome ∨ (lookupLast envsB n).isSome := by
    rcases mem_unionNames.mp hn with h | h
    · exact Or.inl (lookupLast_isSome.mpr h)
    · exact Or.inr (lookupLast_isSome.mpr h)
  dsimp only [Function.comp_apply, swapResult]
  rw [diffStatusPair_swap (lookupLast envsA n) (lookupLast envsB n) hne]

/-! ## Session state machine lemmas: no handler but the normal-mode quit
branch ever emits the quit command. -/

theorem cmdLoadApps_ne_quit (m : TuiModel) : cmdLoadApps m ≠ Cmd.quit := by
  unfold cmdLoadApps; split <;> simp

theorem cmdLoadEnvVars_ne_quit (m : TuiModel) : cmdLoadEnvVars m ≠ Cmd.quit := by
  unfold cmdLoadEnvVars; split <;> simp

theorem handleSearchMode_ne_quit (m : TuiModel) (k : KeyMsg) :
    (handleSearchMode m k).2 ≠ Cmd.quit := by
  simp only [handleSearchMode]
  split
  · split <;> simp [cmdLoadApps_ne_quit, cmdLoadEnvVars_ne_quit]
  · split
    · simp
    · split
      · simp
      · split <;> simp

theorem handleUpKey_ne_quit (m : TuiModel) : (handleUpKey m).2 ≠ Cmd.quit := by
  simp only [handleUpKey]
  repeat' split
  all_goals first | simp | (split <;> simp)

theorem handleDownKey_ne_quit (m : TuiModel) : (handleDownKey m).2 ≠ Cmd.quit := by
  simp only [handleDownKey]
  repeat' split
  all_goals first | simp | (split <;> simp)

theorem handleEnterKey_ne_quit (m : TuiModel) : (handleEnterKey m).2 ≠ Cmd.quit := by
  simp only [handleEnterKey]
  repeat' split
  all_goals first | simp [cmdLoadApps_ne_quit, cmdLoadEnvVars_ne_quit] | (split <;> simp [cmdLoadApps_ne_quit, cmdLoadEnvVars_ne_quit])

theorem handleRevealStart_ne_quit (m : TuiModel) : (handleRevealStart m).2 ≠ Cmd.quit := by
  simp only [handleRevealStart]
  repeat' split
  all_goals first | simp | (split <;> simp)

theorem handleRevealMenu_ne_quit (m : TuiModel) (k : KeyMsg) :
    (handleRevealMenu m k).2 ≠ Cmd.quit := by
  simp only [handleRevealMenu]
  repeat' split
  all_goals first | simp | (split <;> simp)

theorem handleRevealConfirm_ne_quit (m : TuiModel) (k : KeyMsg) :
    (handleRevealConfirm m k).2 ≠ Cmd.quit := by
  simp only [handleRevealConfirm]
  repeat' split
  all_goals first | simp | (split <;> simp)

theorem handleRevealShow_ne_quit (m : TuiModel) (k : KeyMsg) :
    (handleRevealShow m k).2 ≠ Cmd.quit := by
  simp [handleRevealShow]

theorem handleDiffStart_ne_quit (m : TuiModel) : (handleDiffStart m).2 ≠ Cmd.quit := by
  simp only [handleDiffStart]
  repeat' split
  all_goals first | simp | (split <;> simp)

theorem handleDiffSelect_ne_quit (m : TuiModel) (k : KeyMsg) :
    (handleDiffSelect m k).2 ≠ Cmd.quit := by
  simp only [handleDiffSelect]
  repeat' split
  all_goals first | simp | (split <;> simp)

theorem handleDiffShow_ne_quit (m : TuiModel) (k : KeyMsg) :
    (handleDiffShow m k).2 ≠ Cmd.quit := by
  simp only [handleDiffShow]
  repeat' split
  all_goals first | simp | (split <;> simp)

theorem handleSearchStart_ne_quit (m : TuiModel) : (handleSearchStart m).2 ≠ Cmd.quit := by
  simp [handleSearchStart]

theorem handleNormalMode_ne_quit (m : TuiModel) (k : KeyMsg) :
    (handleNormalMode m k).2 ≠ Cmd.quit := by
  simp only [handleNormalMode]
  repeat' split
  all_goals first
    | simp [handleUpKey_ne_quit, handleDownKey_ne_quit, handleEnterKey_ne_quit,
        handleRevealStart_ne_quit, handleDiffStart_ne_quit, handleSearchStart_ne_quit]
    | (split <;> simp [handleUpKey_ne_quit, handleDownKey_ne_quit, handleEnterKey_ne_quit,
        handleRevealStart_ne_quit, handleDiffStart_ne_quit, handleSearchStart_ne_quit])

/-- The only branch of `handleKeyPress` that returns `tea.Quit` is guarded by
`viewMode == ViewModeNormal`. -/
theorem handleKeyPress_quit_normal (m : TuiModel) (k : KeyMsg)
    (h : (handleKeyPress m k).2 = Cmd.quit) : m.viewMode = .normal := by
  unfold handleKeyPress at h
  split at h
  · rename_i hcond
    simpa using (Bool.and_eq_true_iff.mp hcond).2
  · split at h
    · split at h
      · simp at h
      · exact absurd h (handleSearchMode_ne_quit m k)
    · split at h
      · split at h <;> simp at h
      · split at h
        · exact absurd h (handleNormalMode_ne_quit m k)
        · simp at h
        · exact absurd h (handleRevealMenu_ne_quit m k)
        · exact absurd h (handleRevealConfirm_ne_quit m k)
        · exact absurd h (handleRevealShow_ne_quit m k)
        · exact absurd h (handleDiffSelect_ne_quit m k)
        · exact absurd h (handleDiffShow_ne_quit m k)

theorem diffStatusPair_some_some (a b : EnvVar) :
    ((a.isSecret = true ∨ b.isSecret = true) →
      (diffStatusPair (some a) (some b) = .same ↔ a.hash = b.hash) ∧
      (diffStatusPair (some a) (some b) = .valueDiff ↔ a.hash ≠ b.hash)) ∧
    ((a.isSecret = false ∧ b.isSecret = false) →
      (diffStatusPair (some a) (some b) = .same ↔ a.value = b.value) ∧
      (diffStatusPair (some a) (some b) = .valueDiff ↔ a.value ≠ b.value)) := by
  simp only [diffStatusPair]
  constructor
  · intro hs
    have hb : (a.isSecret || b.isSecret) = true := by rcases hs with h | h <;> simp [h]
    rw [if_pos hb]
    by_cases hh : a.hash = b.hash
    · rw [if_pos (by simp [hh])]; simp [hh]
    · rw [if_neg (by simp [hh])]; simp [hh]
  · rintro ⟨h1, h2⟩
    rw [if_neg (by simp [h1, h2])]
    by_cases hv : a.value = b.value
    · rw [if_pos (by simp [hv])]; simp [hv]
    · rw [if_neg (by simp [hv])]; simp [hv]

theorem compareEnvVars_names (envsA envsB : List EnvVar) :
    (compareEnvVars envsA envsB).map DiffResult.name = unionNames envsA envsB := by
  rw [compareEnvVars, List.map_map]
  exact List.map_id _

/-- Claim C1 as stated is FALSE: the fetch failure of a non-optional discrete
single-key reference makes `resolveEnvVar` return an error, but
`resolveFromPodSpec` swallows that error ("Log error but continue"), skips the
entry and returns the remaining variables with a nil error — the Resolve call
for the workload does not abort and no error reaches the caller. -/
theorem claim_C1_counterexample :
    resolveEnvVar c1Cluster "ns" c1BadEntry = .error () ∧
    resolveFromPodSpec c1Cluster "ns" c1Pod =
      .ok [{ name := "B", value := "v", sourceKind := .inline, valueLen := 1 }] :=
  ⟨rfl, rfl⟩

/-- Claim C1 (amended): a non-optional discrete single-key reference whose
fetch fails makes `resolveEnvVar` return an error, but `resolveFromPodSpec`
swallows that error exactly as it swallows a failing `envFrom` source: the
failing entry or source is skipped and resolution continues with the
remaining entries, sources and containers; `resolveFromPodSpec` always
returns a nil error. -/
theorem claim_C1_theorem :
    (∀ (st : Cluster) (ns : String) (ps : PodSpec),
       ∃ l, resolveFromPodSpec st ns ps = .ok l) ∧
    (∀ (st : Cluster) (ns : String) (e : CoreEnvVar) (vf : EnvVarSource) (ref : KeySelector),
       e.value = "" → e.valueFrom = some vf → vf.configMapKeyRef = some ref →
       getConfigMap st ns ref.name = none → ref.optional ≠ some true →
       resolveEnvVar st ns e = .error ()) ∧
    (∀ (st : Cluster) (ns : String) (e : CoreEnvVar) (vf : EnvVarSource) (ref : KeySelector),
       e.value = "" → e.valueFrom = some vf → vf.configMapKeyRef = none →
       vf.secretKeyRef = some ref → getSecret st ns ref.name = none →
       ref.optional ≠ some true → resolveEnvVar st ns e = .error ()) ∧
    (∀ (st : Cluster) (ns : String) (p : List String × List EnvVar) (e : CoreEnvVar)
       (es : List CoreEnvVar), resolveEnvVar st ns e = .error () →
       envLoop st ns p (e :: es) = envLoop st ns p es) ∧
    (∀ (st : Cluster) (ns : String) (p : List String × List EnvVar) (ef : EnvFromSource)
       (efs : List EnvFromSource), resolveEnvFrom st ns ef = .error () →
       envFromLoop st ns p (ef :: efs) = envFromLoop st ns p efs) := by
  refine ⟨fun st ns ps => ⟨_, resolveFromPodSpec_eq st ns ps⟩, ?_, ?_, ?_, ?_⟩
  · intro st ns e vf ref hval hvf href hget hopt
    simp [resolveEnvVar, hval, hvf, href, hget, hopt]
  · intro st ns e vf ref hval hvf hcm href hget hopt
    simp [resolveEnvVar, hval, hvf, hcm, href, hget, hopt]
  · intro st ns p e es herr
    simp [envLoop, herr]
  · intro st ns p ef efs herr
    simp [envFromLoop, herr]

/-- Witness for C1 (amended) at the concrete counterexample inputs. -/
theorem claim_C1_witness :
    (∃ l, resolveFromPodSpec c1Cluster "ns" c1Pod = .ok l) ∧
    resolveEnvVar c1Cluster "ns" c1BadEntry = .error () ∧
    envLoop c1Cluster "ns" ([], []) [c1BadEntry] = envLoop c1Cluster "ns" ([], []) [] :=
  ⟨claim_C1_theorem.1 c1Cluster "ns" c1Pod,
   claim_C1_theorem.2.1 c1Cluster "ns" c1BadEntry _ _ rfl rfl rfl rfl (by decide),
   claim_C1_theorem.2.2.2.1 c1Cluster "ns" ([], []) c1BadEntry []
     (claim_C1_theorem.2.1 c1Cluster "ns" c1BadEntry _ _ rfl rfl rfl rfl (by decide))⟩

/-- Claim C2: `resolveFromPodSpec` equals first-occurrence-wins dedup of the
flat collection order (containers in declared order then init containers;
within a container `envFrom` sources before discrete `env` entries, each in
declared order) followed by the alphabetical sort by name; the sort is a
permutation of the deduplicated list (so it never changes which occurrence
won the dedup), and the final list is sorted by name. -/
theorem claim_C2_theorem (st : Cluster) (ns : String) (ps : PodSpec) :
    resolveFromPodSpec st ns ps =
      .ok (sortByName (dedupFirstWins [] (collectAll st ns ps))) ∧
    (sortByName (dedupFirstWins [] (collectAll st ns ps))).Perm
      (dedupFirstWins [] (collectAll st ns ps)) ∧
    List.Pairwise (fun a b : EnvVar => goStrLe a.name b.name = true)
      (sortByName (dedupFirstWins [] (collectAll st ns ps))) := by
  haveI : IsTotal EnvVar (fun a b : EnvVar => goStrLe a.name b.name = true) :=
    ⟨fun a b => goStrLe_total a.name b.name⟩
  haveI : IsTrans EnvVar (fun a b : EnvVar => goStrLe a.name b.name = true) :=
    ⟨fun _ _ _ => goStrLe_trans⟩
  exact ⟨resolveFromPodSpec_eq st ns ps, List.perm_insertionSort _ _,
    List.sorted_insertionSort _ _⟩

/-- Claim C3: `CompareEnvVars` yields one result per name of the union of the
two sides' names, with pairwise-distinct names sorted alphabetically; each
result carries the per-side map entries (last record of a name wins within a
list, as the Go map build overwrites); a name on one side only is
`ONLY_IN_A`/`ONLY_IN_B`; when both sides are present and either is of
Secret/SealedSecret kind the status is decided by hash-prefix equality only,
otherwise by display-value equality. -/
theorem claim_C3_theorem (envsA envsB : List EnvVar) :
    ((compareEnvVars envsA envsB).map DiffResult.name).Nodup ∧
    List.Pairwise (fun a b => goStrLe a b = true)
      ((compareEnvVars envsA envsB).map DiffResult.name) ∧
    (∀ n, n ∈ (compareEnvVars envsA envsB).map DiffResult.name ↔
       n ∈ namesOf envsA ∨ n ∈ namesOf envsB) ∧
    (∀ r ∈ compareEnvVars envsA envsB,
       r.envA = lookupLast envsA r.name ∧ r.envB = lookupLast envsB r.name ∧
       (r.name ∈ namesOf envsA → r.name ∉ namesOf envsB → r.status = .onlyInA) ∧
       (r.name ∉ namesOf envsA → r.name ∈ namesOf envsB → r.status = .onlyInB) ∧
       (∀ a b, r.envA = some a → r.envB = some b →
         ((a.isSecret = true ∨ b.isSecret = true) →
            (r.status = .same ↔ a.hash = b.hash) ∧
            (r.status = .valueDiff ↔ a.hash ≠ b.hash)) ∧
         ((a.isSecret = false ∧ b.isSecret = false) →
            (r.status = .same ↔ a.value = b.value) ∧
            (r.status = .valueDiff ↔ a.value ≠ b.value)))) := by
  refine ⟨?_, ?_, ?_, ?_⟩
  · rw [compareEnvVars_names]; exact unionNames_nodup _ _
  · rw [compareEnvVars_names]; exact unionNames_sorted _ _
  · intro n; rw [compareEnvVars_names]; exact mem_unionNames
  · intro r hr
    simp only [compareEnvVars, List.mem_map] at hr
    obtain ⟨n, _, rfl⟩ := hr
    refine ⟨rfl, rfl, ?_, ?_, ?_⟩
    · intro hA hB
      have ha : (lookupLast envsA n).isSome := lookupLast_isSome.mpr hA
      have hb : lookupLast envsB n = none := by
        cases hob : lookupLast envsB n with
        | none => rfl
        | some v => exact absurd (lookupLast_isSome.mp (by simp [hob])) hB
      rcases Option.isSome_iff_exists.mp ha with ⟨a, hoa⟩
      show diffStatusPair (lookupLast envsA n) (lookupLast envsB n) = _
      rw [hoa, hb]; rfl
    · intro hA hB
      have ha : lookupLast envsA n = none := by
        cases hoa : lookupLast envsA n with
        | none => rfl
        | some v => exact absurd (lookupLast_isSome.mp (by simp [hoa])) hA
      show diffStatusPair (lookupLast envsA n) (lookupLast envsB n) = _
      rw [ha]; rfl
    · intro a b hoa hob
      dsimp only at hoa hob ⊢
      rw [hoa, hob]
      exact diffStatusPair_some_some a b

/-- Witness for C3 at concrete lists: names are sorted/distinct, the FOO row
is `ONLY_IN_A`, and the PWD row (secret on both sides, distinct hashes) is
`VALUE_DIFF`. -/
theorem claim_C3_witness :
    ((compareEnvVars c3A c3B).map DiffResult.name).Nodup ∧
    ("FOO" ∈ (compareEnvVars c3A c3B).map DiffResult.name ↔
      "FOO" ∈ namesOf c3A ∨ "FOO" ∈ namesOf c3B) ∧
    ({ name := "FOO", envA := lookupLast c3A "FOO", envB := lookupLast c3B "FOO",
       status := diffStatusPair (lookupLast c3A "FOO") (lookupLast c3B "FOO") } :
      DiffResult).status = .onlyInA := by
  refine ⟨(claim_C3_theorem c3A c3B).1, (claim_C3_theorem c3A c3B).2.2.1 "FOO", ?_⟩
  exact ((claim_C3_theorem c3A c3B).2.2.2 _ (by decide)).2.2.1 (by decide) (by decide)

/-- Claim C4: swapping the inputs of `CompareEnvVars` swaps the two per-side
record fields and exchanges `ONLY_IN_A` with `ONLY_IN_B` while leaving `SAME`
and `VALUE_DIFF` unchanged, row for row (the name column is identical). -/
theorem claim_C4_theorem (envsA envsB : List EnvVar) :
    compareEnvVars envsB envsA = (compareEnvVars envsA envsB).map swapResult ∧
    (compareEnvVars envsB envsA).map DiffResult.name =
      (compareEnvVars envsA envsB).map DiffResult.name ∧
    (∀ r ∈ compareEnvVars envsA envsB, swapResult r ∈ compareEnvVars envsB envsA) ∧
    swapStatus .same = .same ∧ swapStatus .valueDiff = .valueDiff ∧
    swapStatus .onlyInA = .onlyInB ∧ swapStatus .onlyInB = .onlyInA := by
  refine ⟨compareEnvVars_swap envsA envsB, ?_, ?_, rfl, rfl, rfl, rfl⟩
  · rw [compareEnvVars_names, compareEnvVars_names, unionNames_comm]
  · intro r hr
    rw [compareEnvVars_swap]
    exact List.mem_map_of_mem _ hr

/-- Witness for C4 at concrete lists. -/
theorem claim_C4_witness :
    compareEnvVars c4B c4A = (compareEnvVars c4A c4B).map swapResult ∧
    swapResult { name := "ONLYA", envA := lookupLast c4A "ONLYA",
                 envB := lookupLast c4B "ONLYA",
                 status := diffStatusPair (lookupLast c4A "ONLYA") (lookupLast c4B "ONLYA") }
      ∈ compareEnvVars c4B c4A :=
  ⟨(claim_C4_theorem c4A c4B).1,
   (claim_C4_theorem c4A c4B).2.2.1 _ (by decide)⟩

/-- Claim C5: in `RevealConfirm`, the confirm (enter) event is a no-op leaving
the whole model unchanged (and returning no command, hence no error) unless
the typed text is exactly the case-sensitive literal `"OK"`; on exact match
the machine transitions to `RevealShow`, the revealed value is the targeted
record's raw bytes formatted per the chosen mode, and a one-shot 30-second
timer tick is scheduled. -/
theorem claim_C5_theorem (m : TuiModel) (k : KeyMsg)
    (hm : m.viewMode = .revealConfirm) (hk : k.s = "enter") :
    (m.revealInput ≠ "OK" → update m (.key k) = (m, .none)) ∧
    (m.revealInput = "OK" →
      (update m (.key k)).1.viewMode = .revealShow ∧
      (update m (.key k)).2 = .tickRevealTimeout 30 ∧
      ∀ ev, m.envVars.find? (fun v => v.name == m.revealedEnvName) = some ev →
        (update m (.key k)).1.revealedValue = revealFormat m.revealMode ev.rawValue) := by
  obtain ⟨s⟩ := k
  simp only [KeyMsg.mk.injEq] at hk
  subst hk
  constructor
  · intro hne
    simp [update, handleKeyPress, matchesQuit, matchesBack, matchesCancel, hm,
      handleRevealConfirm, matchesEnter, hne]
  · intro hok
    have hred : update m (.key ⟨"enter"⟩) = handleRevealConfirm m ⟨"enter"⟩ := by
      simp [update, handleKeyPress, matchesQuit, matchesBack, matchesCancel, hm]
    rw [hred]
    simp only [handleRevealConfirm, matchesEnter]
    rw [if_pos (by decide), if_pos (by simp [hok])]
    refine ⟨rfl, rfl, ?_⟩
    intro ev hfind
    simp [hfind]

/-- Witness for C5: lowercase "ok" is rejected with the model unchanged, exact
"OK" reveals the base64-formatted bytes and schedules the 30-second tick. -/
theorem claim_C5_witness :
    update c5Model (.key ⟨"enter"⟩) = (c5Model, .none) ∧
    (update c5ModelOk (.key ⟨"enter"⟩)).1.viewMode = .revealShow ∧
    (update c5ModelOk (.key ⟨"enter"⟩)).2 = .tickRevealTimeout 30 ∧
    (update c5ModelOk (.key ⟨"enter"⟩)).1.revealedValue = strBytes "aHVudGVyMg==" := by
  refine ⟨(claim_C5_theorem c5Model ⟨"enter"⟩ rfl rfl).1 (by decide),
    ((claim_C5_theorem c5ModelOk ⟨"enter"⟩ rfl rfl).2 rfl).1,
    ((claim_C5_theorem c5ModelOk ⟨"enter"⟩ rfl rfl).2 rfl).2.1, ?_⟩
  have h := ((claim_C5_theorem c5ModelOk ⟨"enter"⟩ rfl rfl).2 rfl).2.2 c5Secret rfl
  rw [h]
  decide

/-- Claim C6 as stated is FALSE: resolving an optional Secret key reference to
a missing Secret produces a record of Secret kind whose hashPrefix is the
empty string (not the hex of any SHA-256 prefix, which has 8 characters) and
whose displayValue is the placeholder, not `"HASH: " + hashPrefix`. -/
theorem claim_C6_counterexample :
    resolveEnvVar ({} : Cluster) "ns" c6Entry = .ok c6Record ∧
    c6Record.sourceKind = .secret ∧
    c6Record.hash = "" ∧
    c6Record.hash.length ≠ 8 ∧
    c6Record.value ≠ "HASH: " ++ c6Record.hash ∧
    c6Record.hash ≠ hexBytes ((sha256 c6Record.rawValue).take 4) :=
  ⟨rfl, rfl, rfl, by decide, by decide, by decide⟩

/-- Claim C6 (amended): every resolved record of Secret or SealedSecret kind
is either the optional-not-found placeholder (no raw bytes, empty hash,
placeholder display value) or satisfies the claim: its hashPrefix is exactly
the 8 lowercase hex characters encoding the first 4 bytes of the SHA-256
digest of the raw value bytes, and its displayValue is exactly `"HASH: "`
followed by that hashPrefix.  `envFrom`-sourced secret records always satisfy
the claim. -/
theorem claim_C6_theorem :
    (∀ (st : Cluster) (ns : String) (e : CoreEnvVar) (r : EnvVar),
       resolveEnvVar st ns e = .ok r → r.isSecret = true →
       (r.value = "(optional, not found)" ∧ r.hash = "" ∧ r.rawValue = []) ∨ hashOk r) ∧
    (∀ (st : Cluster) (ns : String) (ef : EnvFromSource) (vars : List EnvVar),
       resolveEnvFrom st ns ef = .ok vars → ∀ r ∈ vars, r.isSecret = true → hashOk r) ∧
    (∀ (st : Cluster) (ns : String) (ps : PodSpec) (l : List EnvVar),
       resolveFromPodSpec st ns ps = .ok l → ∀ r ∈ l, r.isSecret = true →
       (r.value = "(optional, not found)" ∧ r.hash = "" ∧ r.rawValue = []) ∨ hashOk r) := by
  refine ⟨resolveEnvVar_hashOk, resolveEnvFrom_hashOk, ?_⟩
  intro st ns ps l hl r hr hs
  rcases mem_resolve_cases hl hr with ⟨ef, vars, hok, hmem⟩ | ⟨e, hok⟩
  · exact Or.inr (resolveEnvFrom_hashOk st ns ef vars hok r hmem hs)
  · exact resolveEnvVar_hashOk st ns e r hok hs

/-- Witness for C6 (amended) at a concrete successful secret fetch. -/
theorem claim_C6_witness :
    (c6GoodRec.value = "(optional, not found)" ∧ c6GoodRec.hash = "" ∧
      c6GoodRec.rawValue = []) ∨ hashOk c6GoodRec :=
  claim_C6_theorem.1 c6St "ns" c6GoodEntry c6GoodRec rfl rfl

/-- Claim C7 as stated is FALSE: a FieldRef record has a non-empty display
value but `valueLength` 0 (the code never sets `ValueLen` for FieldRef,
ResourceFieldRef, placeholder or unknown-source records). -/
theorem claim_C7_counterexample :
    resolveEnvVar ({} : Cluster) "ns" c7Entry = .ok c7Record ∧
    c7Record.valueLen = 0 ∧
    goLen c7Record.value = 23 ∧
    c7Record.valueLen ≠ goLen c7Record.value :=
  ⟨rfl, rfl, by decide, by decide⟩

/-- Claim C7 (amended): every record produced by the resolver satisfies
`valueLenOk`: `valueLength = len(rawBytes)` for Secret/SealedSecret kinds
(including the placeholder, whose raw bytes are empty), and
`valueLength = len(displayValue)` for inline values and fetched ConfigMap
values — but `valueLength` stays 0 for the synthesized display strings: the
optional-not-found placeholder, FieldRef, ResourceFieldRef, and the
unknown-source fallback. -/
theorem claim_C7_theorem :
    (∀ (st : Cluster) (ns : String) (e : CoreEnvVar) (r : EnvVar),
       resolveEnvVar st ns e = .ok r → valueLenOk r) ∧
    (∀ (st : Cluster) (ns : String) (ef : EnvFromSource) (vars : List EnvVar),
       resolveEnvFrom st ns ef = .ok vars → ∀ r ∈ vars, valueLenOk r) ∧
    (∀ (st : Cluster) (ns : String) (ps : PodSpec) (l : List EnvVar),
       resolveFromPodSpec st ns ps = .ok l → ∀ r ∈ l, valueLenOk r) := by
  refine ⟨resolveEnvVar_valueLenOk, resolveEnvFrom_valueLenOk, ?_⟩
  intro st ns ps l hl r hr
  rcases mem_resolve_cases hl hr with ⟨ef, vars, hok, hmem⟩ | ⟨e, hok⟩
  · exact resolveEnvFrom_valueLenOk st ns ef vars hok r hmem
  · exact resolveEnvVar_valueLenOk st ns e r hok

/-- Witness for C7 (amended) at the FieldRef record of the counterexample. -/
theorem claim_C7_witness : valueLenOk c7Record :=
  claim_C7_theorem.1 ({} : Cluster) "ns" c7Entry c7Record rfl

/-- Claim C8 is contradicted by the code: dismissal returns no cancellation
command (bubbletea's `tea.Tick` cannot be cancelled and the code does not
guard against it), and the stale `revealTimeoutMsg` is applied
unconditionally — it kicks the in-progress new reveal workflow out of
`RevealConfirm` back to `Normal` and clears its target name, instead of being
a no-op. -/
theorem claim_C8_theorem :
    (update c8Show (.key ⟨"x"⟩)).2 = Cmd.none ∧
    c8AfterDismiss.viewMode = .normal ∧
    c8NewConfirm.viewMode = .revealConfirm ∧
    c8NewConfirm.revealedEnvName = "PWD" ∧
    c8AfterStaleTimeout.viewMode = .normal ∧
    c8AfterStaleTimeout.revealedEnvName = "" ∧
    c8AfterStaleTimeout ≠ c8NewConfirm :=
  ⟨rfl, rfl, rfl, rfl, rfl, rfl, by decide⟩

/-- Claim C9: from any state other than `Normal`, no key event ever produces
the quit command, so the process can exit only from `Normal`. -/
theorem claim_C9_theorem (m : TuiModel) (k : KeyMsg) (h : m.viewMode ≠ .normal) :
    (update m (.key k)).2 ≠ Cmd.quit :=
  fun hq => h (handleKeyPress_quit_normal m k hq)

/-- Witness for C9: the quit key in search mode does not quit. -/
theorem claim_C9_witness : (update c9Model (.key ⟨"q"⟩)).2 ≠ Cmd.quit :=
  claim_C9_theorem c9Model ⟨"q"⟩ (by decide)

/-- Claim C10: a discrete reference to an existing ConfigMap/Secret whose data
lacks the requested key resolves without error to the Go zero value: an empty
display value with `valueLen` 0 for a ConfigMap reference; empty raw bytes,
`valueLen` 0 and the hash of the empty byte string for a Secret reference. -/
theorem claim_C10_theorem :
    (∀ (st : Cluster) (ns : String) (e : CoreEnvVar) (vf : EnvVarSource)
       (ref : KeySelector) (data : List (String × String)),
       e.value = "" → e.valueFrom = some vf → vf.configMapKeyRef = some ref →
       getConfigMap st ns ref.name = some data → alookup data ref.key = none →
       resolveEnvVar st ns e = .ok { name := e.name, value := "", sourceName := ref.name,
                                     sourceKind := .configMap, valueLen := 0 }) ∧
    (∀ (st : Cluster) (ns : String) (e : CoreEnvVar) (vf : EnvVarSource)
       (ref : KeySelector) (data : List (String × List Nat)),
       e.value = "" → e.valueFrom = some vf → vf.configMapKeyRef = none →
       vf.secretKeyRef = some ref → getSecret st ns ref.name = some data →
       alookup data ref.key = none →
       ∃ r, resolveEnvVar st ns e = .ok r ∧ r.rawValue = [] ∧ r.valueLen = 0 ∧
            r.hash = hashValue [] ∧ r.value = "HASH: " ++ hashValue [] ∧
            r.isSecret = true) := by
  constructor
  · intro st ns e vf ref data hval hvf href hget hlook
    simp [resolveEnvVar, hval, hvf, href, hget, hlook, goLen, strBytes]
  · intro st ns e vf ref data hval hvf hcm href hget hlook
    refine ⟨{ name := e.name, rawValue := [], value := "HASH: " ++ hashValue [],
              sourceName := ref.name,
              sourceKind := if isSealedSecret st ns ref.name then .sealedSecret else .secret,
              isSealed := isSealedSecret st ns ref.name, valueLen := 0,
              hash := hashValue [] }, ?_, rfl, rfl, rfl, rfl, ?_⟩
    · simp [resolveEnvVar, hval, hvf, hcm, href, hget, hlook]
    · simp only [EnvVar.isSecret]
      split <;> rfl

/-- Witness for C10 at the concrete cluster. -/
theorem claim_C10_witness :
    resolveEnvVar c10St "ns" c10CmEntry =
      .ok { name := "A", value := "", sourceName := "cm", sourceKind := .configMap,
            valueLen := 0 } ∧
    (∃ r, resolveEnvVar c10St "ns" c10SecEntry = .ok r ∧ r.rawValue = [] ∧ r.valueLen = 0 ∧
          r.hash = hashValue [] ∧ r.value = "HASH: " ++ hashValue [] ∧ r.isSecret = true) :=
  ⟨claim_C10_theorem.1 c10St "ns" c10CmEntry _ _ _ rfl rfl rfl rfl rfl,
   claim_C10_theorem.2 c10St "ns" c10SecEntry _ _ _ rfl rfl rfl rfl rfl rfl⟩

end Envtop
